import Mathlib

/-!
# Verification of the studybility chat client core

Shallow embedding of the data model and operations of the studybility
repository: the chat message pipeline (`useChat` in `src/hooks/useChat.ts`),
the local-storage adapter (`useLocalStorage` in `src/hooks/useLocal.ts`),
the keyword extractor (`src/lib/utils.ts`), and the rate-limited proxy
endpoint (`src/app/api/chat/route.ts`).

Strings are modelled as lists of characters (`Str`), machine timestamps as
`Nat` (epoch milliseconds), and JavaScript's cooperative single-threaded
execution as explicit state passing: every `setSessions(prev => ...)`
functional update in the source becomes a pure Lean function from the
previous session list to the next one.
-/

namespace StudyBuddy

/-- Strings, modelled as lists of characters. -/
abbrev Str := List Char

/-! ## Data model (`src/types/index.ts`) -/

/-- `role: 'user' | 'assistant'` of a chat message. -/
inductive Role where
  | user
  | assistant
deriving DecidableEq, Repr

/-- `DifficultyLevel = 'beginner' | 'intermediate' | 'advanced'`. -/
inductive Difficulty where
  | beginner
  | intermediate
  | advanced
deriving DecidableEq, Repr

/-- `Message` from `src/types/index.ts`.  The optional flags are `none` when
the corresponding property is absent from the JavaScript object (and is
therefore omitted by `JSON.stringify`). -/
structure Message where
  id : Str
  content : Str
  role : Role
  timestamp : Nat
  isBookmarked : Option Bool := none
  isError : Option Bool := none
deriving DecidableEq, Repr

/-- `ChatSession` from `src/types/index.ts`. -/
structure ChatSession where
  id : Str
  title : Str
  messages : List Message
  createdAt : Nat
  updatedAt : Nat
  subject : Option Str := none
  difficulty : Option Difficulty := none
deriving DecidableEq, Repr

/-! ## Keyword extraction (`extractKeywords`, `src/lib/utils.ts`)

The source pipeline is
`text.toLowerCase().replace(/[^\w\s]/g, '').split(/\s+/)
     .filter(word => word.length > 3 && !commonWords.has(word)).slice(0, 10)`.
We model the regex character classes on the fragment the pipeline can see:
`\w` is `[A-Za-z0-9_]` and `\s` is ASCII whitespace. -/

/-- The regex class `\w` (word characters). -/
def isWordChar (c : Char) : Bool :=
  (('a' ≤ c && c ≤ 'z') || ('A' ≤ c && c ≤ 'Z') || ('0' ≤ c && c ≤ '9') || c = '_')

/-- The regex class `\s` (whitespace): space, tab, newline, carriage return,
vertical tab, form feed. -/
def isWSChar (c : Char) : Bool :=
  (c = ' ' || c = '\t' || c = '\n' || c = '\r' || c.val = 11 || c.val = 12)

/-- The `commonWords` stop-word set from `extractKeywords` (the source lists
`'her'` twice; a JavaScript `Set` deduplicates, and list membership is
unaffected by the duplicate). -/
def commonWords : List Str :=
  (["the", "a", "an", "and", "or", "but", "in", "on", "at", "to", "for",
    "of", "with", "by", "is", "are", "was", "were", "be", "been", "have",
    "has", "had", "do", "does", "did", "will", "would", "could", "should",
    "may", "might", "can", "cannot", "this", "that", "these", "those", "i",
    "you", "he", "she", "it", "we", "they", "me", "him", "her", "us",
    "them", "my", "your", "his", "her", "its", "our", "their"].map
    String.data)

/-- JavaScript `String.prototype.split(/\s+/)`: the string is cut at every
maximal run of whitespace; a leading (resp. trailing) run produces a leading
(resp. trailing) empty element, and `''.split(/\s+/)` is `['']`. -/
def jsSplitWS (s : Str) : List Str :=
  match s with
  | [] => [[]]
  | c :: cs =>
    let tok := (c :: cs).takeWhile (fun d => !isWSChar d)
    let rest := (c :: cs).dropWhile (fun d => !isWSChar d)
    if rest.isEmpty then [tok]
    else tok :: jsSplitWS (rest.tail.dropWhile isWSChar)
termination_by s.length
decreasing_by
  have h1 : ((c :: cs).dropWhile (fun d => !isWSChar d)).length ≤ (c :: cs).length :=
    (List.dropWhile_suffix _).length_le
  have h2 : (((c :: cs).dropWhile (fun d => !isWSChar d)).tail.dropWhile
      isWSChar).length ≤ ((c :: cs).dropWhile (fun d => !isWSChar d)).tail.length :=
    (List.dropWhile_suffix _).length_le
  have h3 : ((c :: cs).dropWhile (fun d => !isWSChar d)).tail.length ≤
      ((c :: cs).dropWhile (fun d => !isWSChar d)).length - 1 := by
    simp [List.length_tail]
  simp only [List.length_cons] at h1 ⊢
  omega

/-- JavaScript `Char.toLowerCase` on the ASCII fragment (`Char.toLower`
agrees with it there). -/
def jsToLower (c : Char) : Char := c.toLower

/-- `extractKeywords` from `src/lib/utils.ts`, translated clause by clause:
lower-case, delete every character matching `[^\w\s]`, split on whitespace
runs, keep words of length `> 3` that are not stop words, take the first
ten. -/
def extractKeywords (text : Str) : List Str :=
  ((((jsSplitWS ((text.map jsToLower).filter
        (fun c => isWordChar c || isWSChar c))).filter
      (fun w => decide (3 < w.length) && !(commonWords.contains w))).take 10))

/-- Splitting a string into its maximal whitespace-free words, the way the
specification phrases "splitting on whitespace" (no empty tokens). -/
def wordsOf (s : Str) : List Str :=
  match s with
  | [] => []
  | c :: cs =>
    if isWSChar c then wordsOf (cs.dropWhile isWSChar)
    else (c :: cs.takeWhile (fun d => !isWSChar d)) ::
      wordsOf (cs.dropWhile (fun d => !isWSChar d))
termination_by s.length
decreasing_by
  · have := (List.dropWhile_suffix (l := cs) isWSChar).length_le
    simp only [List.length_cons]
    omega
  · have := (List.dropWhile_suffix (l := cs) (fun d => !isWSChar d)).length_le
    simp only [List.length_cons]
    omega

/-- The specification's description of keyword extraction: lower-case the
text, strip the punctuation (characters that are neither word characters nor
whitespace), split on whitespace, discard stop words and words of length at
most three, and keep at most the first ten remaining tokens in order. -/
def extractKeywordsSpec (text : Str) : List Str :=
  (((wordsOf ((text.map jsToLower).filter
        (fun c => isWordChar c || isWSChar c))).filter
      (fun w => decide (3 < w.length) && !(commonWords.contains w))).take 10)

/-- Filtering with a predicate that rejects the empty token erases the
difference between JavaScript's `split(/\s+/)` (which can produce empty
boundary tokens) and splitting into maximal whitespace-free words. -/
theorem filter_jsSplitWS_eq (p : Str → Bool) (hp : p [] = false) (s : Str) :
    (jsSplitWS s).filter p = (wordsOf s).filter p := by
  match s with
  | [] => simp [jsSplitWS, wordsOf, hp]
  | c :: cs =>
    by_cases hc : isWSChar c
    · have htok : (c :: cs).takeWhile (fun d => !isWSChar d) = [] := by
        simp [List.takeWhile_cons, hc]
      have hdrop : (c :: cs).dropWhile (fun d => !isWSChar d) = c :: cs := by
        simp [List.dropWhile_cons, hc]
      rw [jsSplitWS, wordsOf]
      simp only [htok, hdrop, hc, if_pos, List.isEmpty_cons, Bool.false_eq_true,
        if_false, List.tail_cons, List.filter_cons, hp]
      exact filter_jsSplitWS_eq p hp (cs.dropWhile isWSChar)
    · have htok : (c :: cs).takeWhile (fun d => !isWSChar d) =
          c :: cs.takeWhile (fun d => !isWSChar d) := by
        simp [List.takeWhile_cons, hc]
      have hdrop : (c :: cs).dropWhile (fun d => !isWSChar d) =
          cs.dropWhile (fun d => !isWSChar d) := by
        simp [List.dropWhile_cons, hc]
      rw [jsSplitWS, wordsOf]
      simp only [htok, hdrop, hc, if_neg, if_false]
      match hrest : cs.dropWhile (fun d => !isWSChar d) with
      | [] => simp [wordsOf]
      | r :: rs =>
        have hr : isWSChar r = true := by
          have hne : cs.dropWhile (fun d => !isWSChar d) ≠ [] := by
            rw [hrest]; exact List.cons_ne_nil _ _
          have h := List.head_dropWhile_not (fun d => !isWSChar d) cs hne
          simp only [hrest] at h
          simpa using h
        rw [wordsOf]
        simp only [hr, if_pos, List.isEmpty_cons, Bool.false_eq_true, if_false,
          List.tail_cons, List.filter_cons]
        rw [filter_jsSplitWS_eq p hp (rs.dropWhile isWSChar)]
termination_by s.length
decreasing_by
  · have := (List.dropWhile_suffix (l := cs) isWSChar).length_le
    simp only [List.length_cons]
    omega
  · have h1 := (List.dropWhile_suffix (l := rs) isWSChar).length_le
    have h2 : (cs.dropWhile (fun d => !isWSChar d)).length ≤ cs.length :=
      (List.dropWhile_suffix _).length_le
    rw [hrest] at h2
    simp only [List.length_cons] at h2 ⊢
    omega

/-- C9: keyword extraction is exactly the spec's pipeline: lower-case, strip
punctuation, split on whitespace, discard stop words and words of length at
most three, keep the first ten tokens in order. -/
theorem extractKeywords_eq_spec (text : Str) :
    extractKeywords text = extractKeywordsSpec text := by
  unfold extractKeywords extractKeywordsSpec
  rw [filter_jsSplitWS_eq]
  rfl

/-! ## Proxy endpoint rate limiting (`src/app/api/chat/route.ts`)

The module-level mutable map `ipRequests` becomes an explicit state threaded
through `isRateLimited`; `Date.now()` becomes an explicit `now` argument. -/

/-- `RATE_LIMIT_WINDOW = 60 * 1000`. -/
def RATE_LIMIT_WINDOW : Nat := 60 * 1000

/-- `MAX_REQUESTS_PER_WINDOW = 5`. -/
def MAX_REQUESTS_PER_WINDOW : Nat := 5

/-- The `ipRequests` map: client identifier to `{count, timestamp}`. -/
def RateMap : Type := Str → Option (Nat × Nat)

/-- `ipRequests.set(ip, data)`. -/
def setEntry (m : RateMap) (ip : Str) (v : Nat × Nat) : RateMap :=
  fun k => if k = ip then some v else m k

theorem setEntry_self (m : RateMap) (ip : Str) (v : Nat × Nat) :
    setEntry m ip v ip = some v := by
  simp [setEntry]

/-- `isRateLimited` from the route handler, returning the boolean verdict
together with the updated map.  `now - ts` is JavaScript number subtraction;
on the reachable states `ts ≤ now` it agrees with truncated `Nat`
subtraction, and when `now < ts` both sides make the window check false. -/
def isRateLimited (ip : Str) (now : Nat) (m : RateMap) : Bool × RateMap :=
  match m ip with
  | none => (false, setEntry m ip (1, now))
  | some (count, ts) =>
    if RATE_LIMIT_WINDOW < now - ts then
      (false, setEntry m ip (1, now))
    else
      (decide (MAX_REQUESTS_PER_WINDOW < count + 1),
        setEntry m ip (count + 1, ts))

/-- Result of the upstream `sendChatMessage` call: a reply or a thrown
error message. -/
inductive UpstreamResult where
  | ok (text : Str)
  | err (msg : Str)
deriving DecidableEq, Repr

/-- `errorMessage.includes('rate limit') || errorMessage.includes('too many
requests')` from the route's upstream-failure translation. -/
def mentionsRateLimit (e : Str) : Bool :=
  (decide ("rate limit".data <:+: e) || decide ("too many requests".data <:+: e))

/-- The `POST` handler's status decision, translated branch by branch:
client identifier from the forwarded-for header (defaulting to
`'unknown-ip'`), rate-limit check, message-array validation, missing-key
fallback, upstream call and upstream-failure translation.  Returns the HTTP
status together with the updated rate-limit map. -/
def postStatus (header : Option Str) (now : Nat) (m : RateMap)
    (messages : Option (List Message)) (apiKeyConfigured : Bool)
    (upstream : UpstreamResult) : Nat × RateMap :=
  let ip := header.getD "unknown-ip".data
  let res := isRateLimited ip now m
  if res.1 then (429, res.2)
  else
    match messages with
    | none => (400, res.2)
    | some msgs =>
      if msgs.isEmpty then (400, res.2)
      else if !apiKeyConfigured then (200, res.2)
      else
        match upstream with
        | .ok _ => (200, res.2)
        | .err e => if mentionsRateLimit e then (429, res.2) else (503, res.2)

/-- Feeding a sequence of request arrival times for one client identifier
through `isRateLimited`, collecting the verdicts and the final map. -/
def runRateLimiter (ip : Str) (times : List Nat) (m : RateMap) :
    List Bool × RateMap :=
  match times with
  | [] => ([], m)
  | t :: ts =>
    let res := isRateLimited ip t m
    let rest := runRateLimiter ip ts res.2
    (res.1 :: rest.1, rest.2)

/-- Requests landing inside the current window, starting from an existing
entry `(c, t0)` with room left in the quota, are all admitted and only bump
the counter. -/
theorem runRateLimiter_within (ip : Str) (times : List Nat) (c t0 : Nat)
    (m : RateMap) (hm : m ip = some (c, t0))
    (hw : ∀ t ∈ times, t - t0 ≤ RATE_LIMIT_WINDOW)
    (hc : c + times.length ≤ MAX_REQUESTS_PER_WINDOW) :
    (runRateLimiter ip times m).1 = List.replicate times.length false ∧
      (runRateLimiter ip times m).2 ip = some (c + times.length, t0) := by
  induction times generalizing c m with
  | nil => exact ⟨rfl, by simpa [runRateLimiter] using hm⟩
  | cons t ts ih =>
    have hstep : isRateLimited ip t m =
        (false, setEntry m ip (c + 1, t0)) := by
      have hwt : ¬ RATE_LIMIT_WINDOW < t - t0 :=
        Nat.not_lt.mpr (hw t (List.mem_cons_self _ _))
      have hcnt : ¬ MAX_REQUESTS_PER_WINDOW < c + 1 := by
        simp only [List.length_cons] at hc; omega
      simp [isRateLimited, hm, hwt, hcnt]
    have hrec := ih (c + 1) (setEntry m ip (c + 1, t0)) (setEntry_self _ _ _)
      (fun t' ht' => hw t' (List.mem_cons_of_mem _ ht'))
      (by simp only [List.length_cons] at hc ⊢; omega)
    simp only [runRateLimiter, hstep, List.length_cons, List.replicate_succ]
    exact ⟨by rw [hrec.1], by rw [hrec.2]; ring_nf⟩

/-- C4: six POST requests from the same fresh client identifier within one
60-second window: the first five pass the rate-limit check, the sixth is
rejected with HTTP status 429; and any request arriving strictly more than
60 s after its window's start resets the window to count 1 and passes. -/
theorem rateLimit_sixth_request_429 (ip : Str) (m : RateMap)
    (t0 t1 t2 t3 t4 t5 : Nat) (hfresh : m ip = none)
    (h1 : t1 - t0 ≤ RATE_LIMIT_WINDOW) (h2 : t2 - t0 ≤ RATE_LIMIT_WINDOW)
    (h3 : t3 - t0 ≤ RATE_LIMIT_WINDOW) (h4 : t4 - t0 ≤ RATE_LIMIT_WINDOW)
    (h5 : t5 - t0 ≤ RATE_LIMIT_WINDOW)
    (header : Option Str) (hip : header.getD "unknown-ip".data = ip)
    (messages : Option (List Message)) (key : Bool) (up : UpstreamResult) :
    (runRateLimiter ip [t0, t1, t2, t3, t4] m).1 =
        [false, false, false, false, false] ∧
      (postStatus header t5 (runRateLimiter ip [t0, t1, t2, t3, t4] m).2
          messages key up).1 = 429 ∧
      (∀ (count ts now : Nat) (m' : RateMap), m' ip = some (count, ts) →
        RATE_LIMIT_WINDOW < now - ts →
        (isRateLimited ip now m').1 = false ∧
        (isRateLimited ip now m').2 ip = some (1, now)) := by
  have hstep0 : isRateLimited ip t0 m = (false, setEntry m ip (1, t0)) := by
    simp [isRateLimited, hfresh]
  have hrest := runRateLimiter_within ip [t1, t2, t3, t4] 1 t0
    (setEntry m ip (1, t0)) (setEntry_self _ _ _)
    (by intro t ht; simp only [List.mem_cons, List.not_mem_nil, or_false] at ht
        rcases ht with h | h | h | h <;> subst h <;> assumption)
    (by simp [MAX_REQUESTS_PER_WINDOW])
  have hcons : runRateLimiter ip [t0, t1, t2, t3, t4] m =
      ((isRateLimited ip t0 m).1 ::
          (runRateLimiter ip [t1, t2, t3, t4] (isRateLimited ip t0 m).2).1,
        (runRateLimiter ip [t1, t2, t3, t4] (isRateLimited ip t0 m).2).2) :=
    rfl
  rw [hstep0] at hcons
  have hrun1 : (runRateLimiter ip [t0, t1, t2, t3, t4] m).1 =
      [false, false, false, false, false] := by
    rw [hcons]
    simp only []
    rw [hrest.1]
    rfl
  have hrun2 : (runRateLimiter ip [t0, t1, t2, t3, t4] m).2 ip =
      some (5, t0) := by
    rw [hcons]
    simpa using hrest.2
  refine ⟨hrun1, ?_, ?_⟩
  · have hlim : (isRateLimited ip t5
        (runRateLimiter ip [t0, t1, t2, t3, t4] m).2).1 = true := by
      have hwt : ¬ RATE_LIMIT_WINDOW < t5 - t0 := Nat.not_lt.mpr h5
      simp [isRateLimited, hrun2, hwt, MAX_REQUESTS_PER_WINDOW]
    simp only [postStatus, hip]
    rw [if_pos hlim]
  · intro count ts now m' hm hwin
    simp [isRateLimited, hm, if_pos hwin, setEntry]

/-- Witness for `rateLimit_sixth_request_429` at concrete inputs: six
requests from `1.2.3.4` at times 0 ms through 50 ms. -/
theorem rateLimit_sixth_request_429_witness :
    (runRateLimiter "1.2.3.4".data [0, 10, 20, 30, 40]
        (fun _ => none)).1 = [false, false, false, false, false] ∧
      (postStatus (some "1.2.3.4".data) 50
          (runRateLimiter "1.2.3.4".data [0, 10, 20, 30, 40]
            (fun _ => none)).2
          (some [⟨"m1".data, "hi".data, .user, 0, none, none⟩]) true
          (.ok "reply".data)).1 = 429 := by
  have h := rateLimit_sixth_request_429 "1.2.3.4".data (fun _ => none)
    0 10 20 30 40 50 rfl (by decide) (by decide) (by decide) (by decide)
    (by decide) (some "1.2.3.4".data) rfl
    (some [⟨"m1".data, "hi".data, .user, 0, none, none⟩]) true
    (.ok "reply".data)
  exact ⟨h.1, h.2.1⟩

/-! ## Request retry policy (`retryApiCall` in `src/hooks/useChat.ts`)

`fetch` either resolves with a response (any HTTP status) or throws a
transport-level exception; `retryApiCall` only retries the latter.  The
nondeterministic network is modelled as a function from the attempt index to
that attempt's result. -/

/-- `API_TIMEOUT = 30000` (client-side request timeout in ms). -/
def API_TIMEOUT : Nat := 30000

/-- `MAX_RETRIES = 2`. -/
def MAX_RETRIES : Nat := 2

/-- `RETRY_DELAY = 2000` (base backoff in ms). -/
def RETRY_DELAY : Nat := 2000

/-- A resolved `fetch` response as `sendMessage` consumes it: the `ok` flag
and the `error` / `message` fields of the parsed JSON body. -/
structure Response where
  ok : Bool
  error : Option Str := none
  message : Option Str := none
deriving DecidableEq, Repr

/-- One attempt's result: the `fetch` promise resolves or throws. -/
inductive FetchResult where
  | resolved (r : Response)
  | thrown (e : Str)
deriving DecidableEq, Repr

/-- `retryApiCall` returns the response or throws its last error. -/
inductive RetryOutcome where
  | ok (r : Response)
  | error (e : Str)
deriving DecidableEq, Repr

/-- Outcome of `retryApiCall`: total number of `fetch` calls made, backoff
delays slept between them, and the value returned or error thrown. -/
structure RetryResult where
  attemptsMade : Nat
  delays : List Nat
  outcome : RetryOutcome
deriving DecidableEq, Repr

/-- The `while (attempts <= maxRetries)` loop of `retryApiCall`.  `fuel`
is `maxRetries + 1 - attempts`, the number of iterations the guard still
allows, so the loop structure carries over verbatim; the fuel-exhausted
arm coincides with the loop's exhaustion exit (`throw lastError`). -/
def retryAux (res : Nat → FetchResult) (maxRetries : Nat) :
    Nat → Nat → List Nat → Str → RetryResult
  | 0, attempts, delays, lastErr => ⟨attempts, delays.reverse, .error lastErr⟩
  | fuel + 1, attempts, delays, _lastErr =>
    match res attempts with
    | .resolved r => ⟨attempts + 1, delays.reverse, .ok r⟩
    | .thrown e =>
      if attempts + 1 ≤ maxRetries then
        retryAux res maxRetries fuel (attempts + 1)
          ((RETRY_DELAY * 2 ^ (attempts + 1 - 1)) :: delays) e
      else ⟨attempts + 1, delays.reverse, .error e⟩

/-- `retryApiCall(requestFn, maxRetries = MAX_RETRIES)`. -/
def retryApiCall (res : Nat → FetchResult) (maxRetries : Nat) : RetryResult :=
  retryAux res maxRetries (maxRetries + 1) 0 []
    "Failed after multiple attempts".data

/-- How `sendMessage` consumes what `retryApiCall` produced. -/
inductive SendOutcome where
  | success (reply : Str)
  | failure
deriving DecidableEq, Repr

/-- The response-handling code after `await retryApiCall(makeRequest)`:
`!response.ok`, `data.error`, and a missing `data.message` all throw into
the failure branch; otherwise the reply text is the success value. -/
def outcomeOfRetry (rr : RetryResult) : SendOutcome :=
  match rr.outcome with
  | .error _ => .failure
  | .ok r =>
    if r.ok then
      match r.error with
      | some _ => .failure
      | none =>
        match r.message with
        | some msg => .success msg
        | none => .failure
    else .failure

/-- C3: with `MAX_RETRIES = 2`, every send makes at most 3 `fetch`
attempts; the delays slept are exactly the prefix of [2 s, 4 s] matching
the number of retries; every non-final attempt ended in a thrown exception
(resolved responses, 2xx or not, are never retried); and a response that
resolves on the first attempt ends the loop at once — if it is non-2xx it
is handed to the caller, whose response handling turns it into a failure
without another attempt. -/
theorem retryApiCall_policy (res : Nat → FetchResult) :
    (retryApiCall res MAX_RETRIES).attemptsMade ≤ 3 ∧
      (retryApiCall res MAX_RETRIES).delays =
        [2000, 4000].take ((retryApiCall res MAX_RETRIES).attemptsMade - 1) ∧
      (∀ k, k + 1 < (retryApiCall res MAX_RETRIES).attemptsMade →
        ∃ e, res k = .thrown e) ∧
      (∀ r, res 0 = .resolved r →
        retryApiCall res MAX_RETRIES = ⟨1, [], .ok r⟩ ∧
          (r.ok = false →
            outcomeOfRetry (retryApiCall res MAX_RETRIES) = .failure)) := by
  rcases h0 : res 0 with r0 | e0
  · refine ⟨?_, ?_, ?_, ?_⟩ <;>
      simp_all [retryApiCall, retryAux, MAX_RETRIES, RETRY_DELAY,
        outcomeOfRetry]
  · rcases h1 : res 1 with r1 | e1
    · refine ⟨?_, ?_, ?_, ?_⟩ <;>
        simp_all [retryApiCall, retryAux, MAX_RETRIES, RETRY_DELAY,
          outcomeOfRetry]
      intro k hk
      match k with
      | 0 => exact ⟨e0, h0⟩
    · rcases h2 : res 2 with r2 | e2 <;>
        refine ⟨?_, ?_, ?_, ?_⟩ <;>
          simp_all [retryApiCall, retryAux, MAX_RETRIES, RETRY_DELAY,
            outcomeOfRetry] <;>
        intro k hk <;>
        match k with
        | 0 => exact ⟨e0, h0⟩
        | 1 => exact ⟨e1, h1⟩

/-- Witness for `retryApiCall_policy`: a network where the first attempt
throws and the second resolves makes exactly two attempts with a single
2 s backoff; a network resolving a non-2xx response at once makes exactly
one attempt and the caller treats it as a failure. -/
theorem retryApiCall_policy_witness :
    (retryApiCall
        (fun n => if n = 0 then .thrown "ECONNRESET".data
          else .resolved ⟨true, none, some "hi".data⟩) MAX_RETRIES) =
      ⟨2, [2000], .ok ⟨true, none, some "hi".data⟩⟩ ∧
      (∃ e, (fun n => if n = 0 then FetchResult.thrown "ECONNRESET".data
        else .resolved ⟨true, none, some "hi".data⟩) 0 = .thrown e) ∧
      retryApiCall (fun _ => .resolved ⟨false, none, none⟩) MAX_RETRIES =
        ⟨1, [], .ok ⟨false, none, none⟩⟩ ∧
      outcomeOfRetry
          (retryApiCall (fun _ => .resolved ⟨false, none, none⟩)
            MAX_RETRIES) = .failure := by
  have h1 := retryApiCall_policy
    (fun n => if n = 0 then .thrown "ECONNRESET".data
      else .resolved ⟨true, none, some "hi".data⟩)
  have h2 := retryApiCall_policy (fun _ => .resolved ⟨false, none, none⟩)
  refine ⟨by decide, h1.2.2.1 0 (by decide), ?_, ?_⟩
  · exact (h2.2.2.2 ⟨false, none, none⟩ rfl).1
  · exact (h2.2.2.2 ⟨false, none, none⟩ rfl).2 rfl

/-! ## The send pipeline (`sendMessage` in `src/hooks/useChat.ts`)

Each `setSessions(prevSessions => ...)` functional update becomes a pure
transform on the session list.  `sendMessage` performs, in order: input
validation, the optimistic user-message append, the network attempt (with
retries), and then exactly one of the success / failure appends.  The
`prevSessions` argument is `Option`-typed: `none` models the defensive
`!Array.isArray(prevSessions)` branches. -/

/-- JavaScript `String.prototype.trim()` (ASCII-whitespace fragment). -/
def jsTrim (s : Str) : Str :=
  (((s.dropWhile isWSChar).reverse).dropWhile isWSChar).reverse

/-- `content.slice(0, 50) + (content.length > 50 ? '...' : '')`, the title
derived from a session's first message. -/
def mkTitle (content : Str) : Str :=
  content.take 50 ++ (if 50 < content.length then "...".data else [])

/-- The session object built inline by `sendMessage` when the targeted
session id is absent from the list (or the list is not an array). -/
def freshSendSession (sessionId content : Str) (ts : Nat) (userMsg : Message)
    (subject : Option Str) (difficulty : Option Difficulty) : ChatSession :=
  { id := sessionId, title := mkTitle content, messages := [userMsg],
    createdAt := ts, updatedAt := ts, subject := subject,
    difficulty := difficulty }

/-- The optimistic `setSessions` update: prepend a fresh session when the id
is missing, otherwise append the user message to the matching session,
stamping `updatedAt` and deriving the title when the message list was
empty. -/
def appendUserTransform (sessionId content : Str) (ts : Nat)
    (userMsg : Message) (subject : Option Str)
    (difficulty : Option Difficulty) (prev : Option (List ChatSession)) :
    List ChatSession :=
  match prev with
  | none => [freshSendSession sessionId content ts userMsg subject difficulty]
  | some sessions =>
    if sessions.any (fun s => decide (s.id = sessionId)) then
      sessions.map (fun s =>
        if s.id = sessionId then
          { s with
            messages := s.messages ++ [userMsg],
            updatedAt := ts,
            title := if s.messages.isEmpty then mkTitle content else s.title }
        else s)
    else
      freshSendSession sessionId content ts userMsg subject difficulty ::
        sessions

/-- The duplicate-user-message guard used by both response branches:
`msg.id === userMessage.id || (msg.role === 'user' && msg.content ===
userMessage.content)`. -/
def hasUserMessage (msgs : List Message) (userMsg : Message) : Bool :=
  msgs.any (fun m =>
    decide (m.id = userMsg.id) ||
      (decide (m.role = Role.user) && decide (m.content = userMsg.content)))

/-- The success-branch `setSessions` update: append the assistant reply to
the targeted session, re-inserting the user message only if the guard finds
it missing. -/
def appendAssistantTransform (sessionId : Str) (userMsg assistantMsg : Message)
    (now2 : Nat) (prev : Option (List ChatSession)) : List ChatSession :=
  match prev with
  | none => []
  | some sessions =>
    if sessions.any (fun s => decide (s.id = sessionId)) then
      sessions.map (fun s =>
        if s.id = sessionId then
          { s with
            messages := s.messages ++
              (if hasUserMessage s.messages userMsg then [] else [userMsg]) ++
              [assistantMsg],
            updatedAt := now2 }
        else s)
    else sessions

/-- The fixed apology text of the synthetic error message. -/
def apologyText : Str :=
  ("I apologize, but I encountered an error. " ++
    "Please try again or rephrase your question.").data

/-- The failure-branch `setSessions` update: append the `isError` assistant
message (this branch has no session-existence pre-check; a missing id just
leaves every element unchanged under the map). -/
def appendErrorTransform (sessionId : Str) (userMsg errMsg : Message)
    (now3 : Nat) (prev : Option (List ChatSession)) : List ChatSession :=
  match prev with
  | none => []
  | some sessions =>
    sessions.map (fun s =>
      if s.id = sessionId then
        { s with
          messages := s.messages ++
            (if hasUserMessage s.messages userMsg then [] else [userMsg]) ++
            [errMsg],
          updatedAt := now3 }
      else s)

/-- How one send attempt's network phase ends.  `aborted` is the attempt
being cancelled (superseded by a newer send, timed out, or torn down): its
`fetch` rejects with `AbortError`, which the `catch (apiError)` handler of
`sendMessage` receives exactly like any other failure. -/
inductive AttemptFate where
  | success (replyText : Str) (aId : Str) (now2 : Nat)
  | failure (eId : Str) (now3 : Nat)
  | aborted (eId : Str) (now3 : Nat)
deriving DecidableEq, Repr

/-- The message each fate appends: the assistant reply on success, the
fixed-apology `isError` message on failure or late-arriving abort. -/
def fateMessage : AttemptFate → Message
  | .success reply aId now2 =>
    { id := aId, content := reply, role := .assistant, timestamp := now2 }
  | .failure eId now3 =>
    { id := eId, content := apologyText, role := .assistant,
      timestamp := now3, isError := some true }
  | .aborted eId now3 =>
    { id := eId, content := apologyText, role := .assistant,
      timestamp := now3, isError := some true }

/-- The state after `sendMessage`'s optimistic append (performed before the
network request is issued). -/
def optimisticState (content sessionId : Str) (ts : Nat) (userMsgId : Str)
    (subject : Option Str) (difficulty : Option Difficulty)
    (prev : List ChatSession) : List ChatSession :=
  appendUserTransform sessionId content ts
    { id := userMsgId, content := jsTrim content, role := .user,
      timestamp := ts }
    subject difficulty (some prev)

/-- One complete `sendMessage` run as a function of the network fate:
validation, then the optimistic append, then the branch the fate selects.
The `catch (apiError)` branch runs for `failure` and for `aborted` alike —
the code consults no liveness flag before applying a late result. -/
def sendMessagePipeline (content sessionId : Str) (ts : Nat)
    (userMsgId : Str) (subject : Option Str)
    (difficulty : Option Difficulty) (prev : List ChatSession)
    (fate : AttemptFate) : List ChatSession :=
  if (jsTrim content).isEmpty then prev
  else
    let userMsg : Message :=
      { id := userMsgId, content := jsTrim content, role := .user,
        timestamp := ts }
    let st1 := optimisticState content sessionId ts userMsgId subject
      difficulty prev
    match fate with
    | .success reply aId now2 =>
      appendAssistantTransform sessionId userMsg
        (fateMessage (.success reply aId now2)) now2 (some st1)
    | .failure eId now3 =>
      appendErrorTransform sessionId userMsg
        (fateMessage (.failure eId now3)) now3 (some st1)
    | .aborted eId now3 =>
      appendErrorTransform sessionId userMsg
        (fateMessage (.aborted eId now3)) now3 (some st1)

/-- `sessions.find(...)` by session id. -/
def findSession (l : List ChatSession) (sid : Str) : Option ChatSession :=
  l.find? (fun s => decide (s.id = sid))

/-- `find?` past an id-targeted map update: updating in place with an
id-preserving function commutes with looking the id up. -/
theorem find?_map_update (l : List ChatSession) (sid : Str)
    (f : ChatSession → ChatSession) (hf : ∀ s, (f s).id = s.id) :
    (l.map (fun s => if s.id = sid then f s else s)).find?
        (fun s => decide (s.id = sid)) =
      (l.find? (fun s => decide (s.id = sid))).map f := by
  induction l with
  | nil => rfl
  | cons a l ih =>
    by_cases h : a.id = sid
    · simp [List.find?_cons, h, hf]
    · simp [List.find?_cons, h, ih, hf]

theorem any_id_of_findSession {l : List ChatSession} {sid : Str}
    {sess : ChatSession} (h : findSession l sid = some sess) :
    l.any (fun s => decide (s.id = sid)) = true := by
  rw [findSession] at h
  have hp : decide (sess.id = sid) = true :=
    @List.find?_some ChatSession (fun s => decide (s.id = sid)) sess l h
  exact List.any_eq_true.mpr ⟨sess, List.mem_of_find?_eq_some h, hp⟩

/-- The duplicate guard always fires on the state the optimistic append
produced: the user message is found by its id. -/
theorem hasUserMessage_append_self (msgs : List Message) (userMsg : Message) :
    hasUserMessage (msgs ++ [userMsg]) userMsg = true := by
  simp [hasUserMessage, List.any_append]

/-- Occurrences of a user-role message carrying the trimmed send content. -/
def countTrimmedUserCopies (msgs : List Message) (content : Str) : Nat :=
  msgs.countP (fun m =>
    decide (m.role = Role.user) && decide (m.content = jsTrim content))

/-- Anatomy of one `sendMessage` run against an existing target session:
the optimistic state holds the old messages plus the trimmed user message,
the final state additionally holds the fate's single assistant message, and
the title is derived from the content exactly when the message list was
empty (and is untouched otherwise). -/
theorem sendPipeline_target_session
    (content sid userMsgId : Str) (ts : Nat) (subject : Option Str)
    (difficulty : Option Difficulty) (prev : List ChatSession)
    (sess : ChatSession) (fate : AttemptFate)
    (hc : (jsTrim content).isEmpty = false)
    (hfind : findSession prev sid = some sess) :
    (∃ sess₁,
        findSession (optimisticState content sid ts userMsgId subject
            difficulty prev) sid = some sess₁ ∧
          sess₁.messages = sess.messages ++
            [{ id := userMsgId, content := jsTrim content, role := .user,
               timestamp := ts }] ∧
          sess₁.title =
            (if sess.messages.isEmpty then mkTitle content
              else sess.title)) ∧
      (∃ sess₂,
        findSession (sendMessagePipeline content sid ts userMsgId subject
            difficulty prev fate) sid = some sess₂ ∧
          sess₂.messages = sess.messages ++
            [{ id := userMsgId, content := jsTrim content, role := .user,
               timestamp := ts }, fateMessage fate] ∧
          sess₂.title =
            (if sess.messages.isEmpty then mkTitle content
              else sess.title)) := by
  have hany := any_id_of_findSession hfind
  set userMsg : Message :=
    { id := userMsgId, content := jsTrim content, role := .user,
      timestamp := ts } with huser
  set f : ChatSession → ChatSession := fun s =>
    { s with
      messages := s.messages ++ [userMsg],
      updatedAt := ts,
      title := if s.messages.isEmpty then mkTitle content else s.title }
    with hfdef
  have hf : ∀ s, (f s).id = s.id := fun s => rfl
  have hopt : optimisticState content sid ts userMsgId subject difficulty
      prev = prev.map (fun s => if s.id = sid then f s else s) := by
    simp only [optimisticState, appendUserTransform, hany, if_pos]
  have hfind1 : findSession (optimisticState content sid ts userMsgId
      subject difficulty prev) sid = some (f sess) := by
    rw [hopt, findSession, find?_map_update prev sid f hf]
    rw [findSession] at hfind
    rw [hfind]
    rfl
  have hmsgs1 : (f sess).messages = sess.messages ++ [userMsg] := rfl
  have htitle1 : (f sess).title =
      (if sess.messages.isEmpty then mkTitle content else sess.title) := rfl
  refine ⟨⟨f sess, hfind1, hmsgs1, htitle1⟩, ?_⟩
  have hany1 : (optimisticState content sid ts userMsgId subject difficulty
      prev).any (fun s => decide (s.id = sid)) = true :=
    any_id_of_findSession hfind1
  have hguard : hasUserMessage (f sess).messages userMsg = true := by
    rw [hmsgs1]; exact hasUserMessage_append_self _ _
  have hbranch : ∀ (rMsg : Message) (nowX : Nat),
      (∃ sess₂,
        findSession (appendErrorTransform sid userMsg rMsg nowX
            (some (optimisticState content sid ts userMsgId subject
              difficulty prev))) sid = some sess₂ ∧
          sess₂.messages = sess.messages ++ [userMsg, rMsg] ∧
          sess₂.title =
            (if sess.messages.isEmpty then mkTitle content
              else sess.title)) := by
    intro rMsg nowX
    set g : ChatSession → ChatSession := fun s =>
      { s with
        messages := s.messages ++
          (if hasUserMessage s.messages userMsg then [] else [userMsg]) ++
          [rMsg],
        updatedAt := nowX } with hgdef
    have hg : ∀ s, (g s).id = s.id := fun s => rfl
    have hfind2 : findSession (appendErrorTransform sid userMsg rMsg nowX
        (some (optimisticState content sid ts userMsgId subject difficulty
          prev))) sid = some (g (f sess)) := by
      rw [appendErrorTransform, findSession, find?_map_update _ sid g hg]
      rw [findSession] at hfind1
      rw [hfind1]
      rfl
    refine ⟨g (f sess), hfind2, ?_, ?_⟩
    · show (f sess).messages ++
          (if hasUserMessage (f sess).messages userMsg then []
            else [userMsg]) ++ [rMsg] = sess.messages ++ [userMsg, rMsg]
      rw [hguard, if_pos rfl, hmsgs1]
      simp
    · show (f sess).title = _
      exact htitle1
  match fate with
  | .failure eId now3 =>
    have hres := hbranch (fateMessage (.failure eId now3)) now3
    simpa [sendMessagePipeline, hc] using hres
  | .aborted eId now3 =>
    have hres := hbranch (fateMessage (.aborted eId now3)) now3
    simpa [sendMessagePipeline, hc] using hres
  | .success reply aId now2 =>
    set rMsg := fateMessage (.success reply aId now2) with hrdef
    set g : ChatSession → ChatSession := fun s =>
      { s with
        messages := s.messages ++
          (if hasUserMessage s.messages userMsg then [] else [userMsg]) ++
          [rMsg],
        updatedAt := now2 } with hgdef
    have hg : ∀ s, (g s).id = s.id := fun s => rfl
    have hsucc : sendMessagePipeline content sid ts userMsgId subject
        difficulty prev (.success reply aId now2) =
        (optimisticState content sid ts userMsgId subject difficulty
          prev).map (fun s => if s.id = sid then g s else s) := by
      simp only [sendMessagePipeline, hc, Bool.false_eq_true, if_false,
        appendAssistantTransform, hany1, if_pos]
    have hfind2 : findSession (sendMessagePipeline content sid ts userMsgId
        subject difficulty prev (.success reply aId now2)) sid =
        some (g (f sess)) := by
      rw [hsucc, findSession, find?_map_update _ sid g hg]
      rw [findSession] at hfind1
      rw [hfind1]
      rfl
    refine ⟨g (f sess), hfind2, ?_, ?_⟩
    · show (f sess).messages ++
          (if hasUserMessage (f sess).messages userMsg then []
            else [userMsg]) ++ [rMsg] = sess.messages ++ [userMsg, rMsg]
      rw [hguard, if_pos rfl, hmsgs1]
      simp
    · show (f sess).title = _
      exact htitle1

/-- Every fate's appended message carries the assistant role. -/
theorem fateMessage_role (fate : AttemptFate) :
    (fateMessage fate).role = Role.assistant := by
  cases fate <;> rfl

/-- C1: for non-whitespace content sent to an existing session, the
optimistic update appends exactly the trimmed user message before the
network phase, and whatever the network fate is, the final session holds
the old messages, then that one user message, then the fate's single
assistant message -- the guarded response branches insert no second
copy. -/
theorem sendMessage_appends_one_user_message
    (content sid userMsgId : Str) (ts : Nat) (subject : Option Str)
    (difficulty : Option Difficulty) (prev : List ChatSession)
    (sess : ChatSession) (fate : AttemptFate)
    (hc : (jsTrim content).isEmpty = false)
    (hfind : findSession prev sid = some sess) :
    (∃ sess₁,
        findSession (optimisticState content sid ts userMsgId subject
            difficulty prev) sid = some sess₁ ∧
          sess₁.messages = sess.messages ++
            [{ id := userMsgId, content := jsTrim content, role := .user,
               timestamp := ts }]) ∧
      (∃ sess₂,
        findSession (sendMessagePipeline content sid ts userMsgId subject
            difficulty prev fate) sid = some sess₂ ∧
          sess₂.messages = sess.messages ++
            [{ id := userMsgId, content := jsTrim content, role := .user,
               timestamp := ts }, fateMessage fate] ∧
          countTrimmedUserCopies sess₂.messages content =
            countTrimmedUserCopies sess.messages content + 1) := by
  obtain ⟨⟨s₁, hf1, hm1, -⟩, ⟨s₂, hf2, hm2, -⟩⟩ :=
    sendPipeline_target_session content sid userMsgId ts subject difficulty
      prev sess fate hc hfind
  refine ⟨⟨s₁, hf1, hm1⟩, ⟨s₂, hf2, hm2, ?_⟩⟩
  rw [hm2]
  simp [countTrimmedUserCopies, List.countP_append, List.countP_cons,
    fateMessage_role]

/-- Witness for `sendMessage_appends_one_user_message`: sending
`" hello world "` to the existing empty session `s1` with a successful
reply. -/
theorem sendMessage_appends_one_user_message_witness :
    (∃ sess₁,
        findSession (optimisticState " hello world ".data "s1".data 100
            "u1".data none none
            [{ id := "s1".data, title := "New Chat".data, messages := [],
               createdAt := 0, updatedAt := 0 }]) "s1".data = some sess₁ ∧
          sess₁.messages =
            ([] : List Message) ++
              [{ id := "u1".data, content := jsTrim " hello world ".data,
                 role := .user, timestamp := 100 }]) ∧
      (∃ sess₂,
        findSession (sendMessagePipeline " hello world ".data "s1".data 100
            "u1".data none none
            [{ id := "s1".data, title := "New Chat".data, messages := [],
               createdAt := 0, updatedAt := 0 }]
            (.success "Hi!".data "a1".data 200)) "s1".data = some sess₂ ∧
          sess₂.messages =
            ([] : List Message) ++
              [{ id := "u1".data, content := jsTrim " hello world ".data,
                 role := .user, timestamp := 100 },
                fateMessage (.success "Hi!".data "a1".data 200)] ∧
          countTrimmedUserCopies sess₂.messages " hello world ".data =
            countTrimmedUserCopies ([] : List Message)
              " hello world ".data + 1) :=
  sendMessage_appends_one_user_message " hello world ".data "s1".data
    "u1".data 100 none none
    [{ id := "s1".data, title := "New Chat".data, messages := [],
       createdAt := 0, updatedAt := 0 }]
    { id := "s1".data, title := "New Chat".data, messages := [],
      createdAt := 0, updatedAt := 0 }
    (.success "Hi!".data "a1".data 200) (by decide) (by decide)

/-- C2: a send whose network phase fails leaves the just-appended user
message in place, verbatim and in position, and appends exactly one
additional assistant message flagged `isError := true` carrying the fixed
apology string. -/
theorem failed_send_preserves_user_appends_error
    (content sid userMsgId eId : Str) (ts now3 : Nat) (subject : Option Str)
    (difficulty : Option Difficulty) (prev : List ChatSession)
    (sess : ChatSession)
    (hc : (jsTrim content).isEmpty = false)
    (hfind : findSession prev sid = some sess) :
    ∃ sess₂,
      findSession (sendMessagePipeline content sid ts userMsgId subject
          difficulty prev (.failure eId now3)) sid = some sess₂ ∧
        sess₂.messages =
          (sess.messages ++
            [{ id := userMsgId, content := jsTrim content, role := .user,
               timestamp := ts }]) ++
            [{ id := eId, content := apologyText, role := .assistant,
               timestamp := now3, isBookmarked := none,
               isError := some true }] ∧
        ({ id := userMsgId, content := jsTrim content, role := Role.user,
           timestamp := ts, isBookmarked := none, isError := none } :
          Message) ∈ sess₂.messages := by
  obtain ⟨-, ⟨s₂, hf2, hm2, -⟩⟩ :=
    sendPipeline_target_session content sid userMsgId ts subject difficulty
      prev sess (.failure eId now3) hc hfind
  refine ⟨s₂, hf2, ?_, ?_⟩
  · rw [hm2]
    simp [fateMessage]
  · rw [hm2]
    simp

/-- Witness for `failed_send_preserves_user_appends_error`: a failed send
of `"help me"` into session `s1`, which already holds one message. -/
theorem failed_send_preserves_user_appends_error_witness :
    ∃ sess₂,
      findSession (sendMessagePipeline "help me".data "s1".data 300
          "u2".data none none
          [{ id := "s1".data, title := "T".data,
             messages := [{ id := "u1".data, content := "earlier".data,
                            role := .user, timestamp := 10 }],
             createdAt := 0, updatedAt := 10 }]
          (.failure "e1".data 400)) "s1".data = some sess₂ ∧
        sess₂.messages =
          ([{ id := "u1".data, content := "earlier".data, role := .user,
              timestamp := 10 }] ++
            [{ id := "u2".data, content := jsTrim "help me".data,
               role := .user, timestamp := 300 }]) ++
            [{ id := "e1".data, content := apologyText, role := .assistant,
               timestamp := 400, isBookmarked := none,
               isError := some true }] ∧
        ({ id := "u2".data, content := jsTrim "help me".data,
           role := Role.user, timestamp := 300, isBookmarked := none,
           isError := none } : Message) ∈ sess₂.messages :=
  failed_send_preserves_user_appends_error "help me".data "s1".data
    "u2".data "e1".data 300 400 none none
    [{ id := "s1".data, title := "T".data,
       messages := [{ id := "u1".data, content := "earlier".data,
                      role := .user, timestamp := 10 }],
       createdAt := 0, updatedAt := 10 }]
    { id := "s1".data, title := "T".data,
      messages := [{ id := "u1".data, content := "earlier".data,
                     role := .user, timestamp := 10 }],
      createdAt := 0, updatedAt := 10 }
    (by decide) (by decide)

/-- C6 as stated is false of the code: a cancelled attempt does mutate
session state.  Its aborted `fetch` rejects, the rejection reaches the
ordinary `catch (apiError)` branch (no liveness flag is consulted), and the
error message is appended: the final state is not the optimistic state, and
the session ends with two messages, not one. -/
theorem cancelled_send_still_mutates_counterexample :
    sendMessagePipeline "hello".data "s1".data 100 "u1".data none none
        [{ id := "s1".data, title := "T".data, messages := [],
           createdAt := 0, updatedAt := 0 }] (.aborted "e1".data 200) ≠
      optimisticState "hello".data "s1".data 100 "u1".data none none
        [{ id := "s1".data, title := "T".data, messages := [],
           createdAt := 0, updatedAt := 0 }] ∧
      (findSession
          (sendMessagePipeline "hello".data "s1".data 100 "u1".data none
            none
            [{ id := "s1".data, title := "T".data, messages := [],
               createdAt := 0, updatedAt := 0 }]
            (.aborted "e1".data 200)) "s1".data).map
          (fun s => s.messages.length) = some 2 := by
  decide

/-- C6 amended: after cancellation the attempt's late rejection is handled
by exactly the same code path as an ordinary failure — the `isError`
apology message is appended (the user message staying in place); the
`isMounted` flag exists but is not consulted before this state update. -/
theorem cancelled_send_equals_failed_send
    (content sid userMsgId eId : Str) (ts now3 : Nat) (subject : Option Str)
    (difficulty : Option Difficulty) (prev : List ChatSession)
    (sess : ChatSession)
    (hc : (jsTrim content).isEmpty = false)
    (hfind : findSession prev sid = some sess) :
    sendMessagePipeline content sid ts userMsgId subject difficulty prev
        (.aborted eId now3) =
      sendMessagePipeline content sid ts userMsgId subject difficulty prev
        (.failure eId now3) ∧
      ∃ sess₂,
        findSession (sendMessagePipeline content sid ts userMsgId subject
            difficulty prev (.aborted eId now3)) sid = some sess₂ ∧
          sess₂.messages = sess.messages ++
            [{ id := userMsgId, content := jsTrim content, role := .user,
               timestamp := ts },
              { id := eId, content := apologyText, role := .assistant,
                timestamp := now3, isBookmarked := none,
                isError := some true }] := by
  refine ⟨rfl, ?_⟩
  obtain ⟨-, ⟨s₂, hf2, hm2, -⟩⟩ :=
    sendPipeline_target_session content sid userMsgId ts subject difficulty
      prev sess (.aborted eId now3) hc hfind
  refine ⟨s₂, hf2, ?_⟩
  rw [hm2]
  simp [fateMessage]

/-- Witness for `cancelled_send_equals_failed_send`: a superseded send of
`"hi there"` whose late rejection lands in session `s1`. -/
theorem cancelled_send_equals_failed_send_witness :
    sendMessagePipeline "hi there".data "s1".data 100 "u1".data none none
        [{ id := "s1".data, title := "T".data, messages := [],
           createdAt := 0, updatedAt := 0 }] (.aborted "e1".data 200) =
      sendMessagePipeline "hi there".data "s1".data 100 "u1".data none none
        [{ id := "s1".data, title := "T".data, messages := [],
           createdAt := 0, updatedAt := 0 }] (.failure "e1".data 200) ∧
      ∃ sess₂,
        findSession (sendMessagePipeline "hi there".data "s1".data 100
            "u1".data none none
            [{ id := "s1".data, title := "T".data, messages := [],
               createdAt := 0, updatedAt := 0 }]
            (.aborted "e1".data 200)) "s1".data = some sess₂ ∧
          sess₂.messages = ([] : List Message) ++
            [{ id := "u1".data, content := jsTrim "hi there".data,
               role := .user, timestamp := 100 },
              { id := "e1".data, content := apologyText, role := .assistant,
                timestamp := 200, isBookmarked := none,
                isError := some true }] :=
  cancelled_send_equals_failed_send "hi there".data "s1".data "u1".data
    "e1".data 100 200 none none
    [{ id := "s1".data, title := "T".data, messages := [],
       createdAt := 0, updatedAt := 0 }]
    { id := "s1".data, title := "T".data, messages := [],
      createdAt := 0, updatedAt := 0 }
    (by decide) (by decide)

/-- `updateSessionTitle` from `src/hooks/useChat.ts`: no-op on an empty id
or whitespace-only title, otherwise retitle the matching session with the
trimmed text and stamp `updatedAt`. -/
def updateSessionTitle (sessionId newTitle : Str) (now : Nat)
    (prev : List ChatSession) : List ChatSession :=
  if sessionId.isEmpty || (jsTrim newTitle).isEmpty then prev
  else prev.map (fun s =>
    if s.id = sessionId then
      { s with title := jsTrim newTitle, updatedAt := now }
    else s)

/-- C7 as stated is false of the code: the derived title is not "the
content truncated to at most 50 characters".  For a 51-character first
message the code appends an ellipsis, producing a 53-character title; and
the example also explicitly edits the title of the still-empty session
first, showing the edit does not protect the title either. -/
theorem title_truncation_counterexample :
    (findSession
        (sendMessagePipeline (List.replicate 51 'a') "s1".data 300
          "u1".data none none
          (updateSessionTitle "s1".data "My Title".data 200
            [{ id := "s1".data, title := "New Chat".data, messages := [],
               createdAt := 0, updatedAt := 0 }])
          (.failure "e1".data 400)) "s1".data).map (fun s => s.title) =
      some (List.replicate 50 'a' ++ "...".data) ∧
      ¬ (List.replicate 50 'a' ++ "...".data).length ≤ 50 ∧
      (List.replicate 50 'a' ++ "...".data) ≠ "My Title".data := by
  decide

/-- C7 amended: a send into a session with an empty message list sets the
title to the first 50 characters of the content, with `'...'` appended
when the content exceeds 50 characters (overwriting any previously edited
title); once the session holds at least one message, further sends leave
the title unchanged — under every network fate. -/
theorem title_derivation_amended
    (content sid userMsgId : Str) (ts : Nat) (subject : Option Str)
    (difficulty : Option Difficulty) (prev : List ChatSession)
    (sess : ChatSession) (fate : AttemptFate)
    (hc : (jsTrim content).isEmpty = false)
    (hfind : findSession prev sid = some sess) :
    (sess.messages = [] →
      (findSession (sendMessagePipeline content sid ts userMsgId subject
          difficulty prev fate) sid).map (fun s => s.title) =
        some (content.take 50 ++
          (if 50 < content.length then "...".data else []))) ∧
      (sess.messages ≠ [] →
        (findSession (sendMessagePipeline content sid ts userMsgId subject
            difficulty prev fate) sid).map (fun s => s.title) =
          some sess.title) := by
  obtain ⟨-, ⟨s₂, hf2, -, ht2⟩⟩ :=
    sendPipeline_target_session content sid userMsgId ts subject difficulty
      prev sess fate hc hfind
  constructor
  · intro h
    rw [hf2]
    simp only [Option.map_some']
    rw [ht2]
    simp [h, mkTitle]
  · intro h
    have hne : sess.messages.isEmpty = false := by
      simpa [List.isEmpty_iff] using h
    rw [hf2]
    simp only [Option.map_some']
    rw [ht2, hne]
    simp

/-- Witness for `title_derivation_amended`: a first message of 51 `'a'`s
produces the 50-character prefix plus ellipsis; sending into a session
that already holds a message leaves its title `"Kept"` unchanged. -/
theorem title_derivation_amended_witness :
    (findSession (sendMessagePipeline (List.replicate 51 'a') "s1".data 300
        "u1".data none none
        [{ id := "s1".data, title := "New Chat".data, messages := [],
           createdAt := 0, updatedAt := 0 }]
        (.failure "e1".data 400)) "s1".data).map (fun s => s.title) =
      some ((List.replicate 51 'a').take 50 ++
        (if 50 < (List.replicate 51 'a').length then "...".data else [])) ∧
      (findSession (sendMessagePipeline "hi".data "s2".data 300 "u2".data
          none none
          [{ id := "s2".data, title := "Kept".data,
             messages := [{ id := "u0".data, content := "x".data,
                            role := .user, timestamp := 1 }],
             createdAt := 0, updatedAt := 1 }]
          (.success "ok".data "a1".data 400)) "s2".data).map
          (fun s => s.title) = some "Kept".data := by
  constructor
  · exact (title_derivation_amended (List.replicate 51 'a') "s1".data
      "u1".data 300 none none
      [{ id := "s1".data, title := "New Chat".data, messages := [],
         createdAt := 0, updatedAt := 0 }]
      { id := "s1".data, title := "New Chat".data, messages := [],
        createdAt := 0, updatedAt := 0 }
      (.failure "e1".data 400) (by decide) (by decide)).1 rfl
  · exact (title_derivation_amended "hi".data "s2".data "u2".data 300 none
      none
      [{ id := "s2".data, title := "Kept".data,
         messages := [{ id := "u0".data, content := "x".data, role := .user,
                        timestamp := 1 }],
         createdAt := 0, updatedAt := 1 }]
      { id := "s2".data, title := "Kept".data,
        messages := [{ id := "u0".data, content := "x".data, role := .user,
                       timestamp := 1 }],
        createdAt := 0, updatedAt := 1 }
      (.success "ok".data "a1".data 400) (by decide) (by decide)).2
      (by decide)

/-! ## Storage degradation (`handleQuotaExceeded` in `src/hooks/useLocal.ts`)

When `localStorage.setItem` throws a quota error, `setValue` calls
`handleQuotaExceeded(key, value)`.  We model what that function does to
the store as the action it performs: retry the write with a trimmed
session list, or evict the progress key (performing no further write). -/

/-- The storage key of the session collection. -/
def SESSIONS_KEY : Str := "studypal_sessions".data

/-- The storage key of the progress stats (the designated low-priority
eviction victim). -/
def PROGRESS_KEY : Str := "studypal_progress".data

/-- The value being written when the quota error hit: the session
collection for the sessions key, or any other JSON value (`other`). -/
inductive StoredValue where
  | sessions (l : List ChatSession)
  | other
deriving DecidableEq, Repr

/-- What `handleQuotaExceeded` does: `retrySetItem key l` is
`localStorage.setItem(key, JSON.stringify(l))`; `evictProgress` is
`localStorage.removeItem('studypal_progress')` with no further write. -/
inductive QuotaAction where
  | retrySetItem (key : Str) (sessions : List ChatSession)
  | evictProgress
deriving DecidableEq, Repr

/-- The comparator `(a, b) => b.updatedAt - a.updatedAt` handed to the
(stable) JavaScript `Array.prototype.sort`: `a` precedes `b` when
`b.updatedAt ≤ a.updatedAt`. -/
def byUpdatedAtDesc (a b : ChatSession) : Bool :=
  decide (b.updatedAt ≤ a.updatedAt)

/-- `handleQuotaExceeded` from `src/hooks/useLocal.ts`: for the sessions
key with more than 10 sessions, sort by `updatedAt` descending (stable)
and retry the write with the 10 most recent; in every other case remove
the progress key and stop — the original write is not retried. -/
def handleQuotaExceeded (key : Str) (value : StoredValue) : QuotaAction :=
  match value with
  | .sessions l =>
    if key = SESSIONS_KEY ∧ 10 < l.length then
      .retrySetItem key ((l.mergeSort byUpdatedAtDesc).take 10)
    else .evictProgress
  | .other => .evictProgress

/-- Whether the recovery action writes the given key at all. -/
def writesKey : QuotaAction → Str → Bool
  | .retrySetItem k _, key => decide (k = key)
  | .evictProgress, _ => false

/-- C5 as stated is false of the code for non-session keys: a quota
failure while writing the preferences key evicts the progress key and
performs no retry of the original write. -/
theorem quota_other_key_no_retry_counterexample :
    handleQuotaExceeded "studypal_preferences".data .other =
        .evictProgress ∧
      writesKey (handleQuotaExceeded "studypal_preferences".data .other)
        "studypal_preferences".data = false := by
  decide

/-- C5 amended: a capacity failure on the sessions key with more than 10
sessions retries the write with exactly the 10 most-recently-updated
sessions, sorted descending by `updatedAt` (every dropped session's
`updatedAt` is at most every retained one's, and the retained list is 10
long and drawn from the original collection); a capacity failure on any
other key evicts the progress-stats key and does not retry the original
write. -/
theorem quota_degradation_amended (key : Str) (l : List ChatSession)
    (hkey : key = SESSIONS_KEY) (hlen : 10 < l.length) :
    handleQuotaExceeded key (.sessions l) =
        .retrySetItem key ((l.mergeSort byUpdatedAtDesc).take 10) ∧
      ((l.mergeSort byUpdatedAtDesc).take 10).length = 10 ∧
      ((l.mergeSort byUpdatedAtDesc).take 10).Pairwise
        (fun a b => b.updatedAt ≤ a.updatedAt) ∧
      (∀ a ∈ (l.mergeSort byUpdatedAtDesc).take 10,
        ∀ b ∈ (l.mergeSort byUpdatedAtDesc).drop 10,
          b.updatedAt ≤ a.updatedAt) ∧
      (l.mergeSort byUpdatedAtDesc).Perm l ∧
      (∀ (k : Str) (v : StoredValue), k ≠ SESSIONS_KEY →
        handleQuotaExceeded k v = .evictProgress ∧
          writesKey (handleQuotaExceeded k v) k = false) := by
  have htrans : ∀ a b c : ChatSession, byUpdatedAtDesc a b = true →
      byUpdatedAtDesc b c = true → byUpdatedAtDesc a c = true := by
    intro a b c hab hbc
    simp only [byUpdatedAtDesc, decide_eq_true_eq] at *
    omega
  have htotal : ∀ a b : ChatSession,
      (byUpdatedAtDesc a b || byUpdatedAtDesc b a) = true := by
    intro a b
    simp only [byUpdatedAtDesc, Bool.or_eq_true, decide_eq_true_eq]
    omega
  have hsorted := List.sorted_mergeSort htrans htotal l
  have hsorted' : (l.mergeSort byUpdatedAtDesc).Pairwise
      (fun a b => b.updatedAt ≤ a.updatedAt) := by
    refine hsorted.imp ?_
    intro a b h
    simpa [byUpdatedAtDesc] using h
  refine ⟨by simp [handleQuotaExceeded, hkey, hlen], ?_, ?_, ?_, ?_, ?_⟩
  · have hml : (l.mergeSort byUpdatedAtDesc).length = l.length :=
      List.length_mergeSort l
    rw [List.length_take, hml]
    omega
  · exact hsorted'.sublist (List.take_sublist _ _)
  · intro a ha b hb
    have hsplit : (l.mergeSort byUpdatedAtDesc).Pairwise
        (fun a b => b.updatedAt ≤ a.updatedAt) := hsorted'
    rw [← List.take_append_drop 10 (l.mergeSort byUpdatedAtDesc),
      List.pairwise_append] at hsplit
    exact hsplit.2.2 a ha b hb
  · exact List.mergeSort_perm l byUpdatedAtDesc
  · intro k v hk
    match v with
    | .other => exact ⟨rfl, rfl⟩
    | .sessions l' =>
      have : ¬ (k = SESSIONS_KEY ∧ 10 < l'.length) := fun h => hk h.1
      refine ⟨by simp [handleQuotaExceeded, this], ?_⟩
      simp [handleQuotaExceeded, this, writesKey]

/-- Witness for `quota_degradation_amended`: an 11-session collection with
`updatedAt = 0 .. 10`; the retained ten are `updatedAt = 10 .. 1`, and the
preferences key only triggers the eviction. -/
theorem quota_degradation_amended_witness :
    handleQuotaExceeded SESSIONS_KEY
        (.sessions ((List.range 11).map (fun i =>
          { id := "s".data, title := "T".data, messages := [],
            createdAt := 0, updatedAt := i }))) =
      .retrySetItem SESSIONS_KEY
        ((((List.range 11).map (fun i =>
          { id := "s".data, title := "T".data, messages := [],
            createdAt := 0, updatedAt := i })).mergeSort
            byUpdatedAtDesc).take 10) ∧
      (((((List.range 11).map (fun i =>
        { id := "s".data, title := "T".data, messages := [],
          createdAt := 0, updatedAt := i })).mergeSort
          byUpdatedAtDesc).take 10)).length = 10 ∧
      handleQuotaExceeded "studypal_preferences".data .other =
        .evictProgress := by
  have h := quota_degradation_amended SESSIONS_KEY
    ((List.range 11).map (fun i =>
      { id := "s".data, title := "T".data, messages := [],
        createdAt := 0, updatedAt := i })) rfl (by decide)
  exact ⟨h.1, h.2.1, (h.2.2.2.2.2 "studypal_preferences".data .other
    (by decide)).1⟩

/-! ## Persisted JSON round trip (`useLocalStorage` in `src/hooks/useLocal.ts`)

The store adapter persists the session collection with the platform's
`JSON.stringify` and reads it back with `JSON.parse`.  We model the two on
the fragment the adapter actually exchanges: `printSessions` reproduces
`JSON.stringify`'s compact output for a `ChatSession[]` value (object keys
in construction order — `id, title, messages, createdAt, updatedAt,
subject, difficulty` for sessions and `id, content, role, timestamp,
isBookmarked, isError` for messages, `undefined` properties omitted), and
the `parse…` family is a recursive-descent reader of exactly that shape,
agreeing with `JSON.parse` on it.  Strings are modelled up to the escapes
the serializer emits (`\"  \\  \n  \t  \r  \b  \f`); the well-formedness
predicates below restrict attention to strings whose characters need no
`\u` escape, which is the fragment on which this model is faithful. -/

/-- `'\x7b'`, the opening brace character. -/
def lbrace : Char := '\x7b'

/-- `'\x7d'`, the closing brace character. -/
def rbrace : Char := '\x7d'

/-- The escape `JSON.stringify` applies to one character (on the modelled
fragment: no `\u` escapes). -/
def escChar (c : Char) : List Char :=
  if c = '"' then ['\\', '"']
  else if c = '\\' then ['\\', '\\']
  else if c = '\n' then ['\\', 'n']
  else if c = '\t' then ['\\', 't']
  else if c = '\r' then ['\\', 'r']
  else if c = '\x08' then ['\\', 'b']
  else if c = '\x0c' then ['\\', 'f']
  else [c]

/-- Escape a whole string. -/
def escString (s : Str) : Str := s.flatMap escChar

/-- A JSON string literal: quote, escaped body, quote. -/
def quoteStr (s : Str) : Str := '"' :: escString s ++ ['"']

/-- An object key followed by the colon, e.g. `"id":` (keys contain no
escapable characters). -/
def keyColon (name : String) : Str := '"' :: name.data ++ '"' :: [':']

/-- Little-endian decimal digits of a natural number. -/
def natDigitsLE (n : Nat) : List Nat :=
  if _h : n < 10 then [n] else n % 10 :: natDigitsLE (n / 10)
decreasing_by exact Nat.div_lt_self (by omega) (by omega)

/-- The character of a decimal digit. -/
def digitChar (d : Nat) : Char := Char.ofNat (48 + d)

/-- `JSON.stringify` of a natural number (timestamps). -/
def printNat (n : Nat) : Str := ((natDigitsLE n).reverse).map digitChar

/-- `JSON.stringify` of a boolean. -/
def printBool : Bool → Str
  | true => "true".data
  | false => "false".data

/-- The serialized `role` value. -/
def printRole : Role → Str
  | .user => quoteStr "user".data
  | .assistant => quoteStr "assistant".data

/-- The serialized `difficulty` value. -/
def printDifficulty : Difficulty → Str
  | .beginner => quoteStr "beginner".data
  | .intermediate => quoteStr "intermediate".data
  | .advanced => quoteStr "advanced".data

/-- An optional boolean property: omitted when `undefined`. -/
def printOptBool (name : String) : Option Bool → Str
  | none => []
  | some b => ',' :: keyColon name ++ printBool b

/-- An optional string property: omitted when `undefined`. -/
def printOptStr (name : String) : Option Str → Str
  | none => []
  | some s => ',' :: keyColon name ++ quoteStr s

/-- An optional difficulty property: omitted when `undefined`. -/
def printOptDifficulty (name : String) : Option Difficulty → Str
  | none => []
  | some d => ',' :: keyColon name ++ printDifficulty d

/-- The optional tail of a message object, closing brace included. -/
def msgTail (isB isE : Option Bool) : Str :=
  printOptBool "isBookmarked" isB ++ printOptBool "isError" isE ++ [rbrace]

/-- `JSON.stringify` of one message object. -/
def printMessage (m : Message) : Str :=
  lbrace :: keyColon "id" ++ quoteStr m.id ++
    ',' :: keyColon "content" ++ quoteStr m.content ++
    ',' :: keyColon "role" ++ printRole m.role ++
    ',' :: keyColon "timestamp" ++ printNat m.timestamp ++
    msgTail m.isBookmarked m.isError

/-- Comma-separated serialization of array elements. -/
def printCommaSep (f : α → Str) : List α → Str
  | [] => []
  | [x] => f x
  | x :: y :: xs => f x ++ ',' :: printCommaSep f (y :: xs)

/-- `JSON.stringify` of the message array. -/
def printMessages (msgs : List Message) : Str :=
  '[' :: printCommaSep printMessage msgs ++ [']']

/-- The optional tail of a session object, closing brace included. -/
def sessTail (subject : Option Str) (difficulty : Option Difficulty) : Str :=
  printOptStr "subject" subject ++
    printOptDifficulty "difficulty" difficulty ++ [rbrace]

/-- `JSON.stringify` of one session object. -/
def printSession (s : ChatSession) : Str :=
  lbrace :: keyColon "id" ++ quoteStr s.id ++
    ',' :: keyColon "title" ++ quoteStr s.title ++
    ',' :: keyColon "messages" ++ printMessages s.messages ++
    ',' :: keyColon "createdAt" ++ printNat s.createdAt ++
    ',' :: keyColon "updatedAt" ++ printNat s.updatedAt ++
    sessTail s.subject s.difficulty

/-- `JSON.stringify` of the whole session collection, the exact string the
store adapter persists under `studypal_sessions`. -/
def printSessions (l : List ChatSession) : Str :=
  '[' :: printCommaSep printSession l ++ [']']

/-- A character the serializer never needs to `\u`-escape; the model is
faithful to `JSON.stringify` on strings of such characters. -/
def wfChar (c : Char) : Bool :=
  (32 ≤ c.toNat || c = '\n' || c = '\t' || c = '\r' || c = '\x08' ||
    c = '\x0c')

/-- All characters of the string stay clear of `\u` escapes. -/
def wfStr (s : Str) : Bool := s.all wfChar

/-- Well-formedness of a message's strings. -/
def wfMessage (m : Message) : Bool := wfStr m.id && wfStr m.content

/-- Well-formedness of a session's strings. -/
def wfSession (s : ChatSession) : Bool :=
  (wfStr s.id && wfStr s.title && s.messages.all wfMessage &&
    (match s.subject with
     | none => true
     | some x => wfStr x))

/-- Well-formedness of a whole collection. -/
def wfSessions (l : List ChatSession) : Bool := l.all wfSession

/-- Consume an expected literal prefix. -/
def expectPre : Str → Str → Option Str
  | [], input => some input
  | _ :: _, [] => none
  | p :: ps, c :: cs => if c = p then expectPre ps cs else none

/-- Undo one escape (the escapes `JSON.parse` accepts that the serializer
emits, plus `\/`). -/
def unescChar (e : Char) : Option Char :=
  if e = '"' then some '"'
  else if e = '\\' then some '\\'
  else if e = '/' then some '/'
  else if e = 'n' then some '\n'
  else if e = 't' then some '\t'
  else if e = 'r' then some '\r'
  else if e = 'b' then some '\x08'
  else if e = 'f' then some '\x0c'
  else none

/-- Read a string body up to the closing quote, undoing escapes. -/
def parseJStringBody : Str → Option (Str × Str)
  | [] => none
  | c :: cs =>
    if c = '"' then some ([], cs)
    else if c = '\\' then
      match cs with
      | [] => none
      | e :: cs' => do
        let c' ← unescChar e
        let (s, r) ← parseJStringBody cs'
        pure (c' :: s, r)
    else do
      let (s, r) ← parseJStringBody cs
      pure (c :: s, r)

/-- Read a quoted JSON string literal. -/
def parseQuotedStr : Str → Option (Str × Str)
  | '"' :: rest => parseJStringBody rest
  | _ => none

/-- Decimal digit test. -/
def isDigitChar (c : Char) : Bool := ('0' ≤ c && c ≤ '9')

/-- Accumulate decimal digits. -/
def parseNatAux : Str → Nat → Nat × Str
  | [], acc => (acc, [])
  | c :: cs, acc =>
    if isDigitChar c then parseNatAux cs (10 * acc + (c.toNat - 48))
    else (acc, c :: cs)

/-- Read a natural number (at least one digit). -/
def parseNatTok : Str → Option (Nat × Str)
  | [] => none
  | c :: cs =>
    if isDigitChar c then some (parseNatAux (c :: cs) 0) else none

/-- Read a boolean literal. -/
def parseBoolTok (input : Str) : Option (Bool × Str) :=
  match expectPre "true".data input with
  | some r => some (true, r)
  | none =>
    match expectPre "false".data input with
    | some r => some (false, r)
    | none => none

/-- Read a serialized `role` value. -/
def parseRoleTok (input : Str) : Option (Role × Str) :=
  match expectPre (quoteStr "user".data) input with
  | some r => some (.user, r)
  | none =>
    match expectPre (quoteStr "assistant".data) input with
    | some r => some (.assistant, r)
    | none => none

/-- Read a serialized `difficulty` value. -/
def parseDifficultyTok (input : Str) : Option (Difficulty × Str) :=
  match expectPre (quoteStr "beginner".data) input with
  | some r => some (.beginner, r)
  | none =>
    match expectPre (quoteStr "intermediate".data) input with
    | some r => some (.intermediate, r)
    | none =>
      match expectPre (quoteStr "advanced".data) input with
      | some r => some (.advanced, r)
      | none => none

/-- Read an optional `,"name":bool` property (absent when the next text is
not that property). -/
def parseOptBoolField (name : String) (input : Str) :
    Option (Option Bool × Str) :=
  match expectPre (',' :: keyColon name) input with
  | some r => (parseBoolTok r).map (fun p => (some p.1, p.2))
  | none => some (none, input)

/-- Read an optional `,"name":"string"` property. -/
def parseOptStrField (name : String) (input : Str) :
    Option (Option Str × Str) :=
  match expectPre (',' :: keyColon name) input with
  | some r => (parseQuotedStr r).map (fun p => (some p.1, p.2))
  | none => some (none, input)

/-- Read an optional `,"name":difficulty` property. -/
def parseOptDifficultyField (name : String) (input : Str) :
    Option (Option Difficulty × Str) :=
  match expectPre (',' :: keyColon name) input with
  | some r => (parseDifficultyTok r).map (fun p => (some p.1, p.2))
  | none => some (none, input)

/-- Read one message object. -/
def parseMessage (input : Str) : Option (Message × Str) := do
  let r1 ← expectPre (lbrace :: keyColon "id") input
  let (mid, r2) ← parseQuotedStr r1
  let r3 ← expectPre (',' :: keyColon "content") r2
  let (mcontent, r4) ← parseQuotedStr r3
  let r5 ← expectPre (',' :: keyColon "role") r4
  let (mrole, r6) ← parseRoleTok r5
  let r7 ← expectPre (',' :: keyColon "timestamp") r6
  let (mts, r8) ← parseNatTok r7
  let (misB, r9) ← parseOptBoolField "isBookmarked" r8
  let (misE, r10) ← parseOptBoolField "isError" r9
  let r11 ← expectPre [rbrace] r10
  pure (({ id := mid, content := mcontent, role := mrole, timestamp := mts,
           isBookmarked := misB, isError := misE } : Message), r11)

/-- Read the comma-separated elements of a non-empty message array,
closing bracket included; `fuel` bounds the number of elements. -/
def parseMessagesAux : Nat → Str → Option (List Message × Str)
  | 0, _ => none
  | fuel + 1, input => do
    let (m, r) ← parseMessage input
    match r with
    | ',' :: r' => do
      let (ms, r'') ← parseMessagesAux fuel r'
      pure (m :: ms, r'')
    | ']' :: r' => pure ([m], r')
    | _ => none

/-- Read a message array. -/
def parseMessages (input : Str) : Option (List Message × Str) :=
  match input with
  | '[' :: ']' :: r => some ([], r)
  | '[' :: r => parseMessagesAux (r.length + 1) r
  | _ => none

/-- Read one session object. -/
def parseSession (input : Str) : Option (ChatSession × Str) := do
  let r1 ← expectPre (lbrace :: keyColon "id") input
  let (sid, r2) ← parseQuotedStr r1
  let r3 ← expectPre (',' :: keyColon "title") r2
  let (stitle, r4) ← parseQuotedStr r3
  let r5 ← expectPre (',' :: keyColon "messages") r4
  let (smsgs, r6) ← parseMessages r5
  let r7 ← expectPre (',' :: keyColon "createdAt") r6
  let (screated, r8) ← parseNatTok r7
  let r9 ← expectPre (',' :: keyColon "updatedAt") r8
  let (supdated, r10) ← parseNatTok r9
  let (ssubject, r11) ← parseOptStrField "subject" r10
  let (sdifficulty, r12) ← parseOptDifficultyField "difficulty" r11
  let r13 ← expectPre [rbrace] r12
  pure (({ id := sid, title := stitle, messages := smsgs,
           createdAt := screated, updatedAt := supdated,
           subject := ssubject, difficulty := sdifficulty } : ChatSession),
    r13)

/-- Read the comma-separated elements of a non-empty session array,
closing bracket included. -/
def parseSessionsAux : Nat → Str → Option (List ChatSession × Str)
  | 0, _ => none
  | fuel + 1, input => do
    let (s, r) ← parseSession input
    match r with
    | ',' :: r' => do
      let (ss, r'') ← parseSessionsAux fuel r'
      pure (s :: ss, r'')
    | ']' :: r' => pure ([s], r')
    | _ => none

/-- Read a session array. -/
def parseSessions (input : Str) : Option (List ChatSession × Str) :=
  match input with
  | '[' :: ']' :: r => some ([], r)
  | '[' :: r => parseSessionsAux (r.length + 1) r
  | _ => none

/-- `JSON.parse` of a stored sessions string (on the serializer's
fragment): the whole input must be consumed. -/
def parseSessionsTop (input : Str) : Option (List ChatSession) :=
  match parseSessions input with
  | some (l, []) => some l
  | _ => none




theorem expectPre_append (pat rest : Str) :
    expectPre pat (pat ++ rest) = some rest := by
  induction pat with
  | nil => rfl
  | cons p ps ih => simp [expectPre, ih]

theorem parseJStringBody_esc (s rest : Str) :
    parseJStringBody (escString s ++ '"' :: rest) = some (s, rest) := by
  induction s with
  | nil =>
    have h0 : escString [] ++ '"' :: rest = '"' :: rest := by simp [escString]
    rw [h0, parseJStringBody.eq_def]
    simp
  | cons c s' ih =>
    have hesc : escString (c :: s') = escChar c ++ escString s' := by
      simp [escString]
    rw [hesc, List.append_assoc]
    by_cases h1 : c = '"'
    · subst h1
      rw [show escChar '"' = ['\\', '"'] from rfl]
      simp [parseJStringBody, unescChar, ih]
    · by_cases h2 : c = '\\'
      · subst h2
        rw [show escChar '\\' = ['\\', '\\'] from rfl]
        simp [parseJStringBody, unescChar, ih]
      · by_cases h3 : c = '\n'
        · subst h3
          rw [show escChar '\n' = ['\\', 'n'] from rfl]
          simp [parseJStringBody, unescChar, ih]
        · by_cases h4 : c = '\t'
          · subst h4
            rw [show escChar '\t' = ['\\', 't'] from rfl]
            simp [parseJStringBody, unescChar, ih]
          · by_cases h5 : c = '\r'
            · subst h5
              rw [show escChar '\r' = ['\\', 'r'] from rfl]
              simp [parseJStringBody, unescChar, ih]
            · by_cases h6 : c = '\x08'
              · subst h6
                rw [show escChar '\x08' = ['\\', 'b'] from rfl]
                simp [parseJStringBody, unescChar, ih]
              · by_cases h7 : c = '\x0c'
                · subst h7
                  rw [show escChar '\x0c' = ['\\', 'f'] from rfl]
                  simp [parseJStringBody, unescChar, ih]
                · have hd : escChar c = [c] := by
                    simp [escChar, h1, h2, h3, h4, h5, h6, h7]
                  rw [hd]
                  simp only [List.cons_append, List.nil_append]
                  rw [parseJStringBody.eq_def]
                  simp only [if_neg h1, if_neg h2, ih]
                  rfl

theorem parseQuotedStr_print (s rest : Str) :
    parseQuotedStr (quoteStr s ++ rest) = some (s, rest) := by
  have h : quoteStr s ++ rest = '"' :: (escString s ++ '"' :: rest) := by
    simp [quoteStr]
  rw [h, parseQuotedStr, parseJStringBody_esc]



theorem digitChar_digit (d : Nat) (h : d < 10) :
    isDigitChar (digitChar d) = true ∧ (digitChar d).toNat - 48 = d := by
  interval_cases d <;> exact ⟨rfl, rfl⟩

theorem natDigitsLE_lt (n : Nat) : ∀ d ∈ natDigitsLE n, d < 10 := by
  induction n using natDigitsLE.induct with
  | case1 n h =>
    intro d hd
    rw [natDigitsLE] at hd
    simp [h] at hd
    omega
  | case2 n h ih =>
    intro d hd
    rw [natDigitsLE] at hd
    simp [h] at hd
    rcases hd with hd | hd
    · omega
    · exact ih d hd

theorem natDigitsLE_ne_nil (n : Nat) : natDigitsLE n ≠ [] := by
  rw [natDigitsLE]
  by_cases h : n < 10 <;> simp [h]

theorem parseNatAux_digits (ds : Str) (c : Char) (cs : Str)
    (h : ds.all isDigitChar = true) (hc : isDigitChar c = false) :
    ∀ acc, parseNatAux (ds ++ c :: cs) acc =
      (ds.foldl (fun a ch => 10 * a + (ch.toNat - 48)) acc, c :: cs) := by
  induction ds with
  | nil =>
    intro acc
    simp [parseNatAux, hc]
  | cons d ds' ih =>
    intro acc
    simp only [List.all_cons, Bool.and_eq_true] at h
    simp [parseNatAux, h.1, ih h.2]

theorem foldl_digits_map (ds : List Nat) (h : ∀ d ∈ ds, d < 10) :
    ∀ acc, (ds.map digitChar).foldl (fun a ch => 10 * a + (ch.toNat - 48))
      acc = ds.foldl (fun a d => 10 * a + d) acc := by
  induction ds with
  | nil => intro acc; rfl
  | cons d ds' ih =>
    intro acc
    have hd : d < 10 := h d (List.mem_cons_self _ _)
    simp only [List.map_cons, List.foldl_cons, (digitChar_digit d hd).2]
    exact ih (fun x hx => h x (List.mem_cons_of_mem _ hx)) _

theorem foldl_natDigitsLE_reverse (n : Nat) :
    ∀ acc, ((natDigitsLE n).reverse).foldl (fun a d => 10 * a + d) acc =
      acc * 10 ^ (natDigitsLE n).length + n := by
  induction n using natDigitsLE.induct with
  | case1 n h =>
    intro acc
    rw [natDigitsLE]
    simp [h]
    ring
  | case2 n h ih =>
    intro acc
    rw [natDigitsLE]
    simp only [dif_neg h, List.reverse_cons, List.foldl_append,
      List.foldl_cons, List.foldl_nil, List.length_cons]
    rw [ih]
    have hdm := Nat.div_add_mod n 10
    rw [pow_succ]
    generalize (10 : Nat) ^ (natDigitsLE (n / 10)).length = P
    ring_nf
    omega

theorem printNat_all_digits (n : Nat) :
    (printNat n).all isDigitChar = true := by
  rw [printNat, List.all_eq_true]
  intro ch hch
  rw [List.mem_map] at hch
  obtain ⟨d, hd, rfl⟩ := hch
  rw [List.mem_reverse] at hd
  exact (digitChar_digit d (natDigitsLE_lt n d hd)).1

theorem parseNatTok_print (n : Nat) (c : Char) (cs : Str)
    (hc : isDigitChar c = false) :
    parseNatTok (printNat n ++ c :: cs) = some (n, c :: cs) := by
  have hne : printNat n ≠ [] := by
    rw [printNat]
    simp [natDigitsLE_ne_nil n]
  match hp : printNat n with
  | [] => exact absurd hp hne
  | d :: ds' =>
    have hall : (printNat n).all isDigitChar = true := printNat_all_digits n
    rw [hp] at hall
    simp only [List.all_cons, Bool.and_eq_true] at hall
    rw [List.cons_append, parseNatTok]
    rw [if_pos hall.1]
    rw [← List.cons_append, ← hp]
    rw [parseNatAux_digits (printNat n) c cs (printNat_all_digits n) hc 0]
    have hfold := foldl_digits_map ((natDigitsLE n).reverse)
      (fun d hd => natDigitsLE_lt n d (List.mem_reverse.mp hd)) 0
    rw [printNat] at *
    rw [hfold, foldl_natDigitsLE_reverse n 0]
    simp



theorem parseBoolTok_print (b : Bool) (rest : Str) :
    parseBoolTok (printBool b ++ rest) = some (b, rest) := by
  cases b <;> rfl

theorem parseRoleTok_print (role : Role) (rest : Str) :
    parseRoleTok (printRole role ++ rest) = some (role, rest) := by
  cases role <;> rfl

theorem parseDifficultyTok_print (d : Difficulty) (rest : Str) :
    parseDifficultyTok (printDifficulty d ++ rest) = some (d, rest) := by
  cases d <;> rfl



theorem parseNatTok_msgTail (n : Nat) (misB misE : Option Bool)
    (rest : Str) :
    parseNatTok (printNat n ++ (msgTail misB misE ++ rest)) =
      some (n, msgTail misB misE ++ rest) := by
  rcases misB with _ | b <;> rcases misE with _ | e <;>
    simp only [msgTail, printOptBool, List.append_assoc, List.cons_append,
      List.nil_append] <;>
    exact parseNatTok_print _ _ _ rfl

theorem parseMessage_tail (mid mct : Str) (mrole : Role) (mts : Nat)
    (misB misE : Option Bool) (rest : Str) :
    (do
      let (b, r9) ← parseOptBoolField "isBookmarked"
        (msgTail misB misE ++ rest)
      let (e, r10) ← parseOptBoolField "isError" r9
      let r11 ← expectPre [rbrace] r10
      pure (({ id := mid, content := mct, role := mrole, timestamp := mts,
               isBookmarked := b, isError := e } : Message), r11)) =
      some ({ id := mid, content := mct, role := mrole, timestamp := mts,
              isBookmarked := misB, isError := misE }, rest) := by
  rcases misB with _ | b
  · rcases misE with _ | e
    · rfl
    · cases e <;> rfl
  · rcases misE with _ | e
    · cases b <;> rfl
    · cases b <;> cases e <;> rfl



theorem parseMessage_print (m : Message) (rest : Str) :
    parseMessage (printMessage m ++ rest) = some (m, rest) := by
  obtain ⟨mid, mct, mrole, mts, misB, misE⟩ := m
  have e1 : printMessage ⟨mid, mct, mrole, mts, misB, misE⟩ ++ rest =
      (lbrace :: keyColon "id") ++
        (quoteStr mid ++
          ((',' :: keyColon "content") ++
            (quoteStr mct ++
              ((',' :: keyColon "role") ++
                (printRole mrole ++
                  ((',' :: keyColon "timestamp") ++
                    (printNat mts ++
                      (msgTail misB misE ++ rest)))))))) := by
    simp [printMessage, List.append_assoc]
  rw [parseMessage, e1, expectPre_append]
  simp only [Option.bind_eq_bind, Option.some_bind]
  rw [parseQuotedStr_print]
  simp only [Option.bind_eq_bind, Option.some_bind]
  rw [expectPre_append]
  simp only [Option.bind_eq_bind, Option.some_bind]
  rw [parseQuotedStr_print]
  simp only [Option.bind_eq_bind, Option.some_bind]
  rw [expectPre_append]
  simp only [Option.bind_eq_bind, Option.some_bind]
  rw [parseRoleTok_print]
  simp only [Option.bind_eq_bind, Option.some_bind]
  rw [expectPre_append]
  simp only [Option.bind_eq_bind, Option.some_bind]
  rw [parseNatTok_msgTail]
  simp only [Option.bind_eq_bind, Option.some_bind]
  exact parseMessage_tail mid mct mrole mts misB misE rest



theorem parseMessagesAux_print (msgs : List Message) (hne : msgs ≠ [])
    (rest : Str) :
    ∀ fuel, msgs.length ≤ fuel →
      parseMessagesAux fuel
          (printCommaSep printMessage msgs ++ (']' :: rest)) =
        some (msgs, rest) := by
  induction msgs with
  | nil => exact absurd rfl hne
  | cons x xs ih =>
    intro fuel hfuel
    match xs, fuel with
    | [], fuel + 1 =>
      rw [show printCommaSep printMessage [x] = printMessage x from rfl]
      rw [parseMessagesAux, parseMessage_print]
      rfl
    | y :: ys, fuel + 1 =>
      have hstep : printCommaSep printMessage (x :: y :: ys) ++
          (']' :: rest) = printMessage x ++
            (',' :: (printCommaSep printMessage (y :: ys) ++
              (']' :: rest))) := by
        simp [printCommaSep, List.append_assoc]
      rw [hstep, parseMessagesAux, parseMessage_print]
      simp only [Option.bind_eq_bind, Option.some_bind]
      rw [ih (List.cons_ne_nil _ _) fuel
        (by simp only [List.length_cons] at hfuel ⊢; omega)]
      rfl



theorem printCommaSep_msg_length (msgs : List Message) :
    msgs.length ≤ (printCommaSep printMessage msgs).length := by
  induction msgs with
  | nil => simp [printCommaSep]
  | cons x xs ih =>
    match xs with
    | [] =>
      rw [show printCommaSep printMessage [x] = printMessage x from rfl]
      simp [printMessage]
    | y :: ys =>
      have h : printCommaSep printMessage (x :: y :: ys) =
          printMessage x ++ ',' :: printCommaSep printMessage (y :: ys) :=
        rfl
      rw [h]
      simp only [List.length_cons, List.length_append] at ih ⊢
      have : 0 < (printMessage x).length := by simp [printMessage]
      omega

theorem parseMessages_print (msgs : List Message) (rest : Str) :
    parseMessages (printMessages msgs ++ rest) = some (msgs, rest) := by
  match msgs with
  | [] => rfl
  | m :: ms =>
    obtain ⟨R, hR⟩ : ∃ R, printMessage m = lbrace :: R := ⟨_, rfl⟩
    obtain ⟨T, hT⟩ : ∃ T, printCommaSep printMessage (m :: ms) =
        lbrace :: T := by
      match ms with
      | [] => exact ⟨R, hR⟩
      | y :: ys =>
        refine ⟨R ++ ',' :: printCommaSep printMessage (y :: ys), ?_⟩
        rw [show printCommaSep printMessage (m :: y :: ys) =
          printMessage m ++ ',' :: printCommaSep printMessage (y :: ys)
          from rfl, hR]
        simp
    have hin : printMessages (m :: ms) ++ rest =
        '[' :: lbrace :: (T ++ (']' :: rest)) := by
      simp [printMessages, hT, List.append_assoc]
    rw [hin, parseMessages]
    have hback : lbrace :: (T ++ (']' :: rest)) =
        printCommaSep printMessage (m :: ms) ++ (']' :: rest) := by
      rw [hT]
      simp
    rw [hback]
    exact parseMessagesAux_print (m :: ms) (List.cons_ne_nil _ _) rest _
      (by
        have h1 := printCommaSep_msg_length (m :: ms)
        simp only [List.length_append]
        omega)
    intro r h
    injection h with h1 h2
    exact absurd h1 (by decide)



theorem parseNatTok_keyComma (n : Nat) (k : Str) (tail : Str) :
    parseNatTok (printNat n ++ ((',' :: k) ++ tail)) =
      some (n, (',' :: k) ++ tail) := by
  rw [show (',' :: k) ++ tail = ',' :: (k ++ tail) from rfl]
  exact parseNatTok_print n ',' (k ++ tail) rfl

theorem parseNatTok_sessTail (n : Nat) (subj : Option Str)
    (diff : Option Difficulty) (rest : Str) :
    parseNatTok (printNat n ++ (sessTail subj diff ++ rest)) =
      some (n, sessTail subj diff ++ rest) := by
  rcases subj with _ | s <;> rcases diff with _ | d <;>
    simp only [sessTail, printOptStr, printOptDifficulty,
      List.append_assoc, List.cons_append, List.nil_append] <;>
    exact parseNatTok_print _ _ _ rfl

theorem parseSession_tail (sid stitle : Str) (smsgs : List Message)
    (scr supd : Nat) (subj : Option Str) (diff : Option Difficulty)
    (rest : Str) :
    (do
      let (sb, r11) ← parseOptStrField "subject" (sessTail subj diff ++ rest)
      let (sd, r12) ← parseOptDifficultyField "difficulty" r11
      let r13 ← expectPre [rbrace] r12
      pure (({ id := sid, title := stitle, messages := smsgs,
               createdAt := scr, updatedAt := supd, subject := sb,
               difficulty := sd } : ChatSession), r13)) =
      some ({ id := sid, title := stitle, messages := smsgs,
              createdAt := scr, updatedAt := supd, subject := subj,
              difficulty := diff }, rest) := by
  rcases subj with _ | s
  · rcases diff with _ | d
    · rfl
    · cases d <;> rfl
  · have e : sessTail (some s) diff ++ rest =
        (',' :: keyColon "subject") ++ (quoteStr s ++
          (printOptDifficulty "difficulty" diff ++ (rbrace :: rest))) := by
      simp [sessTail, printOptStr, List.append_assoc]
    rw [e, parseOptStrField, expectPre_append]
    simp only []
    rw [parseQuotedStr_print]
    simp only [Option.map_some', Option.bind_eq_bind, Option.some_bind]
    rcases diff with _ | d
    · rfl
    · cases d <;> rfl



theorem parseSession_print (s : ChatSession) (rest : Str) :
    parseSession (printSession s ++ rest) = some (s, rest) := by
  obtain ⟨sid, stitle, smsgs, scr, supd, subj, diff⟩ := s
  have e1 : printSession ⟨sid, stitle, smsgs, scr, supd, subj, diff⟩ ++
      rest = (lbrace :: keyColon "id") ++
        (quoteStr sid ++
          ((',' :: keyColon "title") ++
            (quoteStr stitle ++
              ((',' :: keyColon "messages") ++
                (printMessages smsgs ++
                  ((',' :: keyColon "createdAt") ++
                    (printNat scr ++
                      ((',' :: keyColon "updatedAt") ++
                        (printNat supd ++
                          (sessTail subj diff ++ rest)))))))))) := by
    simp [printSession, printMessages, List.append_assoc]
  rw [parseSession, e1, expectPre_append]
  simp only [Option.bind_eq_bind, Option.some_bind]
  rw [parseQuotedStr_print]
  simp only [Option.bind_eq_bind, Option.some_bind]
  rw [expectPre_append]
  simp only [Option.bind_eq_bind, Option.some_bind]
  rw [parseQuotedStr_print]
  simp only [Option.bind_eq_bind, Option.some_bind]
  rw [expectPre_append]
  simp only [Option.bind_eq_bind, Option.some_bind]
  rw [parseMessages_print]
  simp only [Option.bind_eq_bind, Option.some_bind]
  rw [expectPre_append]
  simp only [Option.bind_eq_bind, Option.some_bind]
  rw [parseNatTok_keyComma]
  simp only [Option.bind_eq_bind, Option.some_bind]
  rw [expectPre_append]
  simp only [Option.bind_eq_bind, Option.some_bind]
  rw [parseNatTok_sessTail]
  simp only [Option.bind_eq_bind, Option.some_bind]
  exact parseSession_tail sid stitle smsgs scr supd subj diff rest

theorem parseSessionsAux_print (l : List ChatSession) (hne : l ≠ [])
    (rest : Str) :
    ∀ fuel, l.length ≤ fuel →
      parseSessionsAux fuel
          (printCommaSep printSession l ++ (']' :: rest)) =
        some (l, rest) := by
  induction l with
  | nil => exact absurd rfl hne
  | cons x xs ih =>
    intro fuel hfuel
    match xs, fuel with
    | [], fuel + 1 =>
      rw [show printCommaSep printSession [x] = printSession x from rfl]
      rw [parseSessionsAux, parseSession_print]
      rfl
    | y :: ys, fuel + 1 =>
      have hstep : printCommaSep printSession (x :: y :: ys) ++
          (']' :: rest) = printSession x ++
            (',' :: (printCommaSep printSession (y :: ys) ++
              (']' :: rest))) := by
        simp [printCommaSep, List.append_assoc]
      rw [hstep, parseSessionsAux, parseSession_print]
      simp only [Option.bind_eq_bind, Option.some_bind]
      rw [ih (List.cons_ne_nil _ _) fuel
        (by simp only [List.length_cons] at hfuel ⊢; omega)]
      rfl

theorem printCommaSep_sess_length (l : List ChatSession) :
    l.length ≤ (printCommaSep printSession l).length := by
  induction l with
  | nil => simp [printCommaSep]
  | cons x xs ih =>
    match xs with
    | [] =>
      rw [show printCommaSep printSession [x] = printSession x from rfl]
      simp [printSession]
    | y :: ys =>
      have h : printCommaSep printSession (x :: y :: ys) =
          printSession x ++ ',' :: printCommaSep printSession (y :: ys) :=
        rfl
      rw [h]
      simp only [List.length_cons, List.length_append] at ih ⊢
      have : 0 < (printSession x).length := by simp [printSession]
      omega

theorem parseSessions_print (l : List ChatSession) (rest : Str) :
    parseSessions (printSessions l ++ rest) = some (l, rest) := by
  match l with
  | [] => rfl
  | s :: ss =>
    obtain ⟨R, hR⟩ : ∃ R, printSession s = lbrace :: R := ⟨_, rfl⟩
    obtain ⟨T, hT⟩ : ∃ T, printCommaSep printSession (s :: ss) =
        lbrace :: T := by
      match ss with
      | [] => exact ⟨R, hR⟩
      | y :: ys =>
        refine ⟨R ++ ',' :: printCommaSep printSession (y :: ys), ?_⟩
        rw [show printCommaSep printSession (s :: y :: ys) =
          printSession s ++ ',' :: printCommaSep printSession (y :: ys)
          from rfl, hR]
        simp
    have hin : printSessions (s :: ss) ++ rest =
        '[' :: lbrace :: (T ++ (']' :: rest)) := by
      simp [printSessions, hT, List.append_assoc]
    rw [hin, parseSessions]
    have hback : lbrace :: (T ++ (']' :: rest)) =
        printCommaSep printSession (s :: ss) ++ (']' :: rest) := by
      rw [hT]
      simp
    rw [hback]
    exact parseSessionsAux_print (s :: ss) (List.cons_ne_nil _ _) rest _
      (by
        have h1 := printCommaSep_sess_length (s :: ss)
        simp only [List.length_append]
        omega)
    intro r h
    injection h with h1 h2
    exact absurd h1 (by decide)

theorem parseSessionsTop_print (l : List ChatSession) :
    parseSessionsTop (printSessions l) = some l := by
  have h : printSessions l = printSessions l ++ [] := by simp
  rw [parseSessionsTop, h, parseSessions_print]

/-- `getInitialValue` of the store adapter for the sessions key:
`JSON.parse` the stored item, substituting the initial value (the empty
collection) when nothing is stored. -/
def loadStoredSessions (stored : Option Str) : List ChatSession :=
  match stored with
  | none => []
  | some item => (parseSessionsTop item).getD []

/-- The storage-sync path that re-persists the loaded value with
`JSON.stringify(storedValue)`.  (The adapter's `studypal_sessions`
validation — a string `id` and an array `messages` per entry — accepts
every typed session, so the filter is the identity here and the
`validSessions.length !== storedValue.length` branch is not taken.) -/
def resaveStoredSessions (stored : Option Str) : Str :=
  printSessions (loadStoredSessions stored)

/-- C8: loading a previously persisted session collection and immediately
re-saving it without modification writes the byte-identical JSON string
back to the store.  The hypothesis restricts to collections whose strings
need no `\u` escape, the fragment on which `printSessions` is faithful to
`JSON.stringify`. -/
theorem load_resave_byte_identical (l : List ChatSession)
    (hwf : wfSessions l = true) :
    loadStoredSessions (some (printSessions l)) = l ∧
      resaveStoredSessions (some (printSessions l)) = printSessions l := by
  have h : loadStoredSessions (some (printSessions l)) = l := by
    rw [loadStoredSessions, parseSessionsTop_print]
    rfl
  exact ⟨h, by rw [resaveStoredSessions, h]⟩

/-- Witness for `load_resave_byte_identical`: a two-session collection
whose strings exercise quote, backslash and newline escapes. -/
theorem load_resave_byte_identical_witness :
    loadStoredSessions (some (printSessions
        [{ id := "s1".data, title := "Math \"help\"\nplease".data,
           messages := [{ id := "m1".data, content := "what is 2+2?".data,
                          role := .user, timestamp := 123 },
                        { id := "m2".data, content := "4".data,
                          role := .assistant, timestamp := 456,
                          isBookmarked := some true,
                          isError := some false }],
           createdAt := 1, updatedAt := 999,
           subject := some "math".data },
         { id := "s2".data, title := "T".data, messages := [],
           createdAt := 5, updatedAt := 7,
           difficulty := some .advanced }])) =
      [{ id := "s1".data, title := "Math \"help\"\nplease".data,
         messages := [{ id := "m1".data, content := "what is 2+2?".data,
                        role := .user, timestamp := 123 },
                      { id := "m2".data, content := "4".data,
                        role := .assistant, timestamp := 456,
                        isBookmarked := some true,
                        isError := some false }],
         createdAt := 1, updatedAt := 999,
         subject := some "math".data },
       { id := "s2".data, title := "T".data, messages := [],
         createdAt := 5, updatedAt := 7,
         difficulty := some .advanced }] ∧
      resaveStoredSessions (some (printSessions
        [{ id := "s1".data, title := "Math \"help\"\nplease".data,
           messages := [{ id := "m1".data, content := "what is 2+2?".data,
                          role := .user, timestamp := 123 },
                        { id := "m2".data, content := "4".data,
                          role := .assistant, timestamp := 456,
                          isBookmarked := some true,
                          isError := some false }],
           createdAt := 1, updatedAt := 999,
           subject := some "math".data },
         { id := "s2".data, title := "T".data, messages := [],
           createdAt := 5, updatedAt := 7,
           difficulty := some .advanced }])) =
      printSessions
        [{ id := "s1".data, title := "Math \"help\"\nplease".data,
           messages := [{ id := "m1".data, content := "what is 2+2?".data,
                          role := .user, timestamp := 123 },
                        { id := "m2".data, content := "4".data,
                          role := .assistant, timestamp := 456,
                          isBookmarked := some true,
                          isError := some false }],
           createdAt := 1, updatedAt := 999,
           subject := some "math".data },
         { id := "s2".data, title := "T".data, messages := [],
           createdAt := 5, updatedAt := 7,
           difficulty := some .advanced }] :=
  load_resave_byte_identical
    [{ id := "s1".data, title := "Math \"help\"\nplease".data,
       messages := [{ id := "m1".data, content := "what is 2+2?".data,
                      role := .user, timestamp := 123 },
                    { id := "m2".data, content := "4".data,
                      role := .assistant, timestamp := 456,
                      isBookmarked := some true,
                      isError := some false }],
       createdAt := 1, updatedAt := 999,
       subject := some "math".data },
     { id := "s2".data, title := "T".data, messages := [],
       createdAt := 5, updatedAt := 7,
       difficulty := some .advanced }] (by decide)

end StudyBuddy
